import Mathlib

/-!
Verification of the CKPlugins image-reader core (BMP / TGA / PCX codecs).

This file gives a shallow embedding of the three codecs' decode and encode
routines (`BMP_Read`, `BMP_Save`, `TGA_Read`, `TGA_Save`, `PCX_Read` and their
helpers) and proves properties of the embedded definitions.

Modelling conventions:
  * machine bytes and 16/32-bit words are `Nat`s; CKDWORD (32-bit unsigned)
    arithmetic is made explicit with `% 2^32` wherever the C code can wrap;
  * byte streams are `List Nat`; a file is the whole byte list
    (the memory-backed data-source path of each codec);
  * fallible stages return `Except CKBitmapError`;
  * heap buffers are `List Nat`; `List.set` models an in-place store
    (an out-of-range store in C would be undefined behaviour, `List.set`
    leaves the list unchanged);
  * bytes the C code leaves uninitialized (`new` without memset, row padding)
    are modelled as zero; the decoders never read them on the proved paths.
-/

namespace CKImage

/-- Error taxonomy of the readers (CKBITMAPERROR_* codes). -/
inductive CKBitmapError where
  | generic
  | readError
  | unsupportedFile
  | fileCorrupted
deriving DecidableEq, Repr

instance {e a : Type} [DecidableEq e] [DecidableEq a] : DecidableEq (Except e a) :=
  fun x y =>
    match x, y with
    | .error u, .error v =>
      if h : u = v then isTrue (by rw [h])
      else isFalse (by intro hc; cases hc; exact h rfl)
    | .ok u, .ok v =>
      if h : u = v then isTrue (by rw [h])
      else isFalse (by intro hc; cases hc; exact h rfl)
    | .error _, .ok _ => isFalse (by intro hc; cases hc)
    | .ok _, .error _ => isFalse (by intro hc; cases hc)

/-- A byte stream: each element is one byte of the file. -/
abbrev Bytes := List Nat

/-- Read a little-endian 16-bit word at `off` (out-of-range bytes read as 0). -/
def rd16 (l : Bytes) (off : Nat) : Nat :=
  l.getD off 0 + 256 * l.getD (off + 1) 0

/-- Read a little-endian 32-bit word at `off`. -/
def rd32 (l : Bytes) (off : Nat) : Nat :=
  rd16 l off + 65536 * rd16 l (off + 2)

/-- Serialize a 16-bit word little-endian. -/
def wr16 (v : Nat) : Bytes := [v % 256, v / 256 % 256]

/-- Serialize a 32-bit word little-endian. -/
def wr32 (v : Nat) : Bytes :=
  [v % 256, v / 256 % 256, v / 65536 % 256, v / 16777216 % 256]

/-- `VxImageDescEx` as filled by the readers: canonical-buffer metadata plus
the pixel bytes (`Image`). -/
structure VxImageDescEx where
  Width : Nat
  Height : Nat
  BytesPerLine : Nat
  BitsPerPixel : Nat
  RedMask : Nat
  GreenMask : Nat
  BlueMask : Nat
  AlphaMask : Nat
  Image : List Nat
deriving DecidableEq, Repr

/-- Modelled from the spec: the channel-mask constant `R_MASK` lives in the
Virtools SDK header `VxColor.h`, which is not among this repository's sources;
the spec fixes the red mask as 0x00FF0000. -/
def R_MASK : Nat := 0x00FF0000

/-- Modelled from the spec: green mask constant from `VxColor.h` (0x0000FF00). -/
def G_MASK : Nat := 0x0000FF00

/-- Modelled from the spec: blue mask constant from `VxColor.h` (0x000000FF). -/
def B_MASK : Nat := 0x000000FF

/-- Modelled from the spec: alpha mask constant from `VxColor.h` (0xFF000000). -/
def A_MASK : Nat := 0xFF000000

/-- `ImageReader::FillFormatBGRA32`: fill the canonical BGRA32 descriptor. -/
def fillFormatBGRA32 (width height bytesPerLine : Nat) (image : List Nat) :
    VxImageDescEx :=
  { Width := width
    Height := height
    BytesPerLine := bytesPerLine
    BitsPerPixel := 32
    RedMask := R_MASK
    GreenMask := G_MASK
    BlueMask := B_MASK
    AlphaMask := A_MASK
    Image := image }

/-- CKDWORD (32-bit unsigned) truncation. -/
def ckd (a : Nat) : Nat := a % 4294967296

/-- CKDWORD subtraction `a - b` (two's complement wraparound), `a` already
reduced mod 2^32. -/
def ckdSub (a b : Nat) : Nat := (a + 4294967296 - b % 4294967296) % 4294967296

/-- Reinterpret a CKDWORD as a signed `int` (two's complement). -/
def ckdToInt (a : Nat) : Int :=
  if a % 4294967296 < 2147483648 then ((a % 4294967296 : Nat) : Int)
  else ((a % 4294967296 : Nat) : Int) - 4294967296

/-- `BmpMemorySource::SeekRelative`: clamp negative underflow to 0; a seek past
the end fails and leaves the position unchanged. -/
def seekRelMem (pos len : Nat) (off : Int) : Nat :=
  let newOff : Nat := if off < 0 ∧ pos < off.natAbs then 0
                      else ((pos : Int) + off).toNat % 4294967296
  if newOff > len then pos else newOff

/-- Store the byte list `vs` into `l` starting at position `pos`
(an in-place `memcpy`-style write; out-of-range stores are dropped, the C
counterpart would be undefined behaviour). -/
def writeBytes : List Nat → Nat → Bytes → List Nat
  | l, _, [] => l
  | l, p, v :: vs => writeBytes (l.set p v) (p + 1) vs

/-- `ExtractMaskedComponent`'s shift loop: number of trailing zero bits
(32 iterations of fuel cover every nonzero CKDWORD mask). -/
def lowBitShift : Nat → Nat → Nat
  | 0, _ => 0
  | f + 1, m => if m % 2 = 0 then lowBitShift f (m / 2) + 1 else 0

/-- `ExtractMaskedComponent`: extract the channel selected by `mask` from
`value` and scale it to 0–255. -/
def extractMaskedComponent (value mask : Nat) : Nat :=
  if mask = 0 then 0
  else
    let shift := lowBitShift 32 mask
    let m := mask >>> shift
    let shifted := (value >>> shift) &&& m
    shifted * 255 / m

/-- `SetBGRAFromPalette`: the four canonical bytes (B,G,R,A) produced for a
palette sample `idx`; an out-of-range index wraps to entry 0. -/
def setBGRAFromPalette (palette : Bytes) (is3Byte : Bool) (entries idx : Nat) :
    Bytes :=
  let idx := if idx ≥ entries then 0 else idx
  let stride := if is3Byte then 3 else 4
  [palette.getD (idx * stride) 0, palette.getD (idx * stride + 1) 0,
   palette.getD (idx * stride + 2) 0, 255]

/-- `RLEContext`: cursor state of the BMP RLE4/RLE8 decoder. -/
structure RLEContext where
  src : Bytes
  srcSize : Nat
  srcPos : Nat
  dst : List Nat
  dstStride : Nat
  width : Nat
  height : Nat
  topDown : Bool
  palette : Bytes
  is3BytePalette : Bool
  paletteEntries : Nat
  x : Nat
  y : Nat
deriving Repr

/-- `RLEContext::ReadByte`'s value: current source byte, 0 past the end. -/
def rleByteAt (c : RLEContext) : Nat :=
  if c.srcPos < c.srcSize then c.src.getD c.srcPos 0 else 0

/-- `RLEContext::ReadByte`'s cursor advance (only while in range). -/
def rleAdvance (c : RLEContext) : RLEContext :=
  if c.srcPos < c.srcSize then { c with srcPos := c.srcPos + 1 } else c

/-- `RLEContext::NextLine`: column 0, next row in storage order; stepping past
row 0 of a bottom-up image parks `y` at `height` (terminating the decode). -/
def rleNextLine (c : RLEContext) : RLEContext :=
  if c.topDown then { c with x := 0, y := ckd (c.y + 1) }
  else if c.y > 0 then { c with x := 0, y := c.y - 1 }
  else { c with x := 0, y := c.height }

/-- `RLEContext::Delta`: move `dx` columns right; `dy` rows follow storage
order (`y + dy` for top-down, `y - dy` with CKDWORD wraparound otherwise). -/
def rleDelta (c : RLEContext) (dx dy : Nat) : RLEContext :=
  { c with x := ckd (c.x + dx),
           y := if c.topDown then ckd (c.y + dy) else ckdSub c.y dy }

/-- `RLEContext::SetPixel`: write the palette color at the cursor and advance
`x`; a cursor outside `[0,width)×[0,height)` drops the write silently. -/
def rleSetPixel (c : RLEContext) (idx : Nat) : RLEContext :=
  if c.y < c.height ∧ c.x < c.width then
    { c with
      dst := writeBytes c.dst (c.y * c.dstStride + c.x * 4)
               (setBGRAFromPalette c.palette c.is3BytePalette c.paletteEntries idx)
      x := ckd (c.x + 1) }
  else c

/-- `RLEContext::HasMore`. -/
def rleHasMore (c : RLEContext) : Prop := c.srcPos < c.srcSize ∧ c.y < c.height

instance (c : RLEContext) : Decidable (rleHasMore c) := by
  unfold rleHasMore; infer_instance

/-- Encoded-run loop body of `DecodeRLE8`: `count` copies of palette index
`val`. -/
def rleRun (c : RLEContext) (count val : Nat) : RLEContext :=
  match count with
  | 0 => c
  | n + 1 => rleRun (rleSetPixel c val) n val

/-- Absolute-run loop body of `DecodeRLE8`: `count` literal indices read from
the stream. -/
def rleAbs (c : RLEContext) (count : Nat) : RLEContext :=
  match count with
  | 0 => c
  | n + 1 => rleAbs (rleSetPixel (rleAdvance c) (rleByteAt c)) n

theorem rleSetPixel_srcPos (c : RLEContext) (v : Nat) :
    (rleSetPixel c v).srcPos = c.srcPos := by
  unfold rleSetPixel; split <;> rfl

theorem rleSetPixel_srcSize (c : RLEContext) (v : Nat) :
    (rleSetPixel c v).srcSize = c.srcSize := by
  unfold rleSetPixel; split <;> rfl

theorem rleRun_srcPos (c : RLEContext) (n v : Nat) :
    (rleRun c n v).srcPos = c.srcPos := by
  induction n generalizing c with
  | zero => rfl
  | succ n ih => simpa [rleRun, rleSetPixel_srcPos] using ih (rleSetPixel c v)

theorem rleRun_srcSize (c : RLEContext) (n v : Nat) :
    (rleRun c n v).srcSize = c.srcSize := by
  induction n generalizing c with
  | zero => rfl
  | succ n ih => simpa [rleRun, rleSetPixel_srcSize] using ih (rleSetPixel c v)

theorem rleAdvance_srcPos_le (c : RLEContext) :
    c.srcPos ≤ (rleAdvance c).srcPos := by
  unfold rleAdvance; split <;> simp

theorem rleAdvance_srcSize (c : RLEContext) :
    (rleAdvance c).srcSize = c.srcSize := by
  unfold rleAdvance; split <;> rfl

theorem rleAbs_srcPos_le (c : RLEContext) (n : Nat) :
    c.srcPos ≤ (rleAbs c n).srcPos := by
  induction n generalizing c with
  | zero => exact Nat.le_refl _
  | succ n ih =>
    calc c.srcPos ≤ (rleAdvance c).srcPos := rleAdvance_srcPos_le c
    _ = (rleSetPixel (rleAdvance c) (rleByteAt c)).srcPos :=
        (rleSetPixel_srcPos _ _).symm
    _ ≤ _ := ih _

theorem rleAbs_srcSize (c : RLEContext) (n : Nat) :
    (rleAbs c n).srcSize = c.srcSize := by
  induction n generalizing c with
  | zero => rfl
  | succ n ih =>
    simpa [rleAbs, rleSetPixel_srcSize, rleAdvance_srcSize] using
      ih (rleSetPixel (rleAdvance c) (rleByteAt c))

theorem rleAdvance_srcPos_lt (c : RLEContext) (h : c.srcPos < c.srcSize) :
    c.srcPos < (rleAdvance c).srcPos := by
  unfold rleAdvance; simp [h]

/-- Skip one padding byte when `count` is odd (absolute runs are padded to an
even byte boundary). -/
def rlePad (c : RLEContext) (count : Nat) : RLEContext :=
  if count % 2 = 1 then { c with srcPos := c.srcPos + 1 } else c

theorem rlePad_srcPos_le (c : RLEContext) (n : Nat) :
    c.srcPos ≤ (rlePad c n).srcPos := by
  unfold rlePad; split <;> simp

theorem rlePad_srcSize (c : RLEContext) (n : Nat) :
    (rlePad c n).srcSize = c.srcSize := by
  unfold rlePad; split <;> rfl

/-- Skip one padding byte when the nibble count occupies an odd number of
bytes (the second RLE4 padding rule). -/
def rle4Pad (c : RLEContext) (count : Nat) : RLEContext :=
  if (count + 1) / 2 % 2 = 1 then { c with srcPos := c.srcPos + 1 } else c

theorem rle4Pad_srcPos_le (c : RLEContext) (n : Nat) :
    c.srcPos ≤ (rle4Pad c n).srcPos := by
  unfold rle4Pad; split <;> simp

theorem rle4Pad_srcSize (c : RLEContext) (n : Nat) :
    (rle4Pad c n).srcSize = c.srcSize := by
  unfold rle4Pad; split <;> rfl

theorem rleNextLine_srcPos (c : RLEContext) :
    (rleNextLine c).srcPos = c.srcPos := by
  unfold rleNextLine; split <;> [rfl; split <;> rfl]

theorem rleNextLine_srcSize (c : RLEContext) :
    (rleNextLine c).srcSize = c.srcSize := by
  unfold rleNextLine; split <;> [rfl; split <;> rfl]

theorem rleDelta_srcPos (c : RLEContext) (dx dy : Nat) :
    (rleDelta c dx dy).srcPos = c.srcPos := rfl

theorem rleDelta_srcSize (c : RLEContext) (dx dy : Nat) :
    (rleDelta c dx dy).srcSize = c.srcSize := rfl

/-- `DecodeRLE8`: the RLE8 escape-code state machine. -/
def decodeRLE8 (c : RLEContext) : RLEContext :=
  if h : rleHasMore c then
    let c1 := rleAdvance c
    let first := rleByteAt c
    let c2 := rleAdvance c1
    let second := rleByteAt c1
    if first = 0 then
      if second = 0 then decodeRLE8 (rleNextLine c2)
      else if second = 1 then c2
      else if second = 2 then
        let c3 := rleAdvance c2
        let dx := rleByteAt c2
        let c4 := rleAdvance c3
        let dy := rleByteAt c3
        decodeRLE8 (rleDelta c4 dx dy)
      else
        decodeRLE8 (rlePad (rleAbs c2 second) second)
    else
      decodeRLE8 (rleRun c2 first second)
  else c
termination_by c.srcSize - c.srcPos
decreasing_by
  all_goals
    obtain ⟨h1, _⟩ := h
    simp only [rleNextLine_srcPos, rleNextLine_srcSize, rleDelta_srcPos,
      rleDelta_srcSize, rleRun_srcPos, rleRun_srcSize, rleAdvance_srcSize,
      rleAbs_srcSize, rlePad_srcSize]
  · have := rleAdvance_srcPos_le (rleAdvance c)
    have := rleAdvance_srcPos_lt c h1
    omega
  · have h2 := rleAdvance_srcPos_le (rleAdvance (rleAdvance c))
    have h3 := rleAdvance_srcPos_le (rleAdvance (rleAdvance (rleAdvance c)))
    have := rleAdvance_srcPos_le (rleAdvance c)
    have := rleAdvance_srcPos_lt c h1
    omega
  · have h2 := rlePad_srcPos_le (rleAbs (rleAdvance (rleAdvance c)) (rleByteAt (rleAdvance c)))
      (rleByteAt (rleAdvance c))
    have h3 := rleAbs_srcPos_le (rleAdvance (rleAdvance c)) (rleByteAt (rleAdvance c))
    have := rleAdvance_srcPos_le (rleAdvance c)
    have := rleAdvance_srcPos_lt c h1
    omega
  · have := rleAdvance_srcPos_le (rleAdvance c)
    have := rleAdvance_srcPos_lt c h1
    omega

/-- RLE4 encoded-run loop: alternate the two nibbles of `val` across the run;
`i` is the loop counter (parity selects the nibble). -/
def rle4Run (c : RLEContext) (count val i : Nat) : RLEContext :=
  match count with
  | 0 => c
  | n + 1 =>
    let idx := if i % 2 = 1 then val % 16 else val / 16
    rle4Run (rleSetPixel c idx) n val (i + 1)

/-- RLE4 absolute-run loop: unpack `count` literal nibbles, advancing the
source position after every odd nibble (the low one of each byte). -/
def rle4Abs (c : RLEContext) (count i : Nat) : RLEContext :=
  match count with
  | 0 => c
  | n + 1 =>
    if i % 2 = 0 then
      let idx := c.src.getD c.srcPos 0 / 16
      rle4Abs (rleSetPixel c idx) n (i + 1)
    else
      let idx := c.src.getD c.srcPos 0 % 16
      rle4Abs (rleSetPixel { c with srcPos := c.srcPos + 1 } idx) n (i + 1)

theorem rle4Run_srcPos (c : RLEContext) (n v i : Nat) :
    (rle4Run c n v i).srcPos = c.srcPos := by
  induction n generalizing c i with
  | zero => rfl
  | succ n ih => simpa [rle4Run, rleSetPixel_srcPos] using ih (rleSetPixel c _) (i + 1)

theorem rle4Run_srcSize (c : RLEContext) (n v i : Nat) :
    (rle4Run c n v i).srcSize = c.srcSize := by
  induction n generalizing c i with
  | zero => rfl
  | succ n ih => simpa [rle4Run, rleSetPixel_srcSize] using ih (rleSetPixel c _) (i + 1)

theorem rle4Abs_srcPos_le (c : RLEContext) (n i : Nat) :
    c.srcPos ≤ (rle4Abs c n i).srcPos := by
  induction n generalizing c i with
  | zero => exact Nat.le_refl _
  | succ n ih =>
    unfold rle4Abs
    split
    · exact le_trans (by simp [rleSetPixel_srcPos]) (ih _ _)
    · exact le_trans (by simp [rleSetPixel_srcPos]) (ih _ _)

theorem rle4Abs_srcSize (c : RLEContext) (n i : Nat) :
    (rle4Abs c n i).srcSize = c.srcSize := by
  induction n generalizing c i with
  | zero => rfl
  | succ n ih =>
    unfold rle4Abs
    split <;> simp [rleSetPixel_srcSize, ih]

/-- `DecodeRLE4`: the RLE4 escape-code state machine. -/
def decodeRLE4 (c : RLEContext) : RLEContext :=
  if h : rleHasMore c then
    let c1 := rleAdvance c
    let first := rleByteAt c
    let c2 := rleAdvance c1
    let second := rleByteAt c1
    if first = 0 then
      if second = 0 then decodeRLE4 (rleNextLine c2)
      else if second = 1 then c2
      else if second = 2 then
        let c3 := rleAdvance c2
        let dx := rleByteAt c2
        let c4 := rleAdvance c3
        let dy := rleByteAt c3
        decodeRLE4 (rleDelta c4 dx dy)
      else
        decodeRLE4 (rle4Pad (rlePad (rle4Abs c2 second 0) second) second)
    else
      decodeRLE4 (rle4Run c2 first second 0)
  else c
termination_by c.srcSize - c.srcPos
decreasing_by
  all_goals
    obtain ⟨h1, _⟩ := h
    simp only [rleNextLine_srcPos, rleNextLine_srcSize, rleDelta_srcPos,
      rleDelta_srcSize, rle4Run_srcPos, rle4Run_srcSize, rleAdvance_srcSize,
      rle4Abs_srcSize, rlePad_srcSize, rle4Pad_srcSize]
  · have := rleAdvance_srcPos_le (rleAdvance c)
    have := rleAdvance_srcPos_lt c h1
    omega
  · have h2 := rleAdvance_srcPos_le (rleAdvance (rleAdvance c))
    have h3 := rleAdvance_srcPos_le (rleAdvance (rleAdvance (rleAdvance c)))
    have := rleAdvance_srcPos_le (rleAdvance c)
    have := rleAdvance_srcPos_lt c h1
    omega
  · have h2 := rle4Pad_srcPos_le
      (rlePad (rle4Abs (rleAdvance (rleAdvance c)) (rleByteAt (rleAdvance c)) 0)
        (rleByteAt (rleAdvance c))) (rleByteAt (rleAdvance c))
    have h3 := rlePad_srcPos_le
      (rle4Abs (rleAdvance (rleAdvance c)) (rleByteAt (rleAdvance c)) 0)
      (rleByteAt (rleAdvance c))
    have h4 := rle4Abs_srcPos_le (rleAdvance (rleAdvance c)) (rleByteAt (rleAdvance c)) 0
    have := rleAdvance_srcPos_le (rleAdvance c)
    have := rleAdvance_srcPos_lt c h1
    omega
  · have := rleAdvance_srcPos_le (rleAdvance c)
    have := rleAdvance_srcPos_lt c h1
    omega

/-- `DecodeRow1bpp`: one canonical row from a 1-bit-per-pixel source row. -/
def decodeRow1bpp (src : Bytes) (width : Nat) (pal : Bytes) (is3 : Bool)
    (entries : Nat) : Bytes :=
  ((List.range width).map (fun x =>
    setBGRAFromPalette pal is3 entries ((src.getD (x / 8) 0 >>> (7 - x % 8)) &&& 1))).flatten

/-- `DecodeRow4bpp`: one canonical row from a 4-bit-per-pixel source row. -/
def decodeRow4bpp (src : Bytes) (width : Nat) (pal : Bytes) (is3 : Bool)
    (entries : Nat) : Bytes :=
  ((List.range width).map (fun x =>
    setBGRAFromPalette pal is3 entries
      (if x % 2 = 1 then src.getD (x / 2) 0 &&& 15 else src.getD (x / 2) 0 >>> 4))).flatten

/-- `DecodeRow8bpp`: one canonical row from an 8-bit-per-pixel source row. -/
def decodeRow8bpp (src : Bytes) (width : Nat) (pal : Bytes) (is3 : Bool)
    (entries : Nat) : Bytes :=
  ((List.range width).map (fun x =>
    setBGRAFromPalette pal is3 entries (src.getD x 0))).flatten

/-- `DecodeRow16bpp`: one canonical row from a 16-bit source row (bitfield
masks or fixed 5-5-5). -/
def decodeRow16bpp (src : Bytes) (width rMask gMask bMask aMask : Nat)
    (useMasks : Bool) : Bytes :=
  ((List.range width).map (fun x =>
    let pixel := rd16 src (x * 2)
    if useMasks ∧ rMask ≠ 0 ∧ gMask ≠ 0 ∧ bMask ≠ 0 then
      [extractMaskedComponent pixel bMask, extractMaskedComponent pixel gMask,
       extractMaskedComponent pixel rMask,
       if aMask ≠ 0 then extractMaskedComponent pixel aMask else 255]
    else
      [(pixel >>> 0 &&& 31) * 255 / 31, (pixel >>> 5 &&& 31) * 255 / 31,
       (pixel >>> 10 &&& 31) * 255 / 31, 255])).flatten

/-- `DecodeRow24bpp`: one canonical row from a 24-bit source row. -/
def decodeRow24bpp (src : Bytes) (width : Nat) : Bytes :=
  ((List.range width).map (fun x =>
    [src.getD (x * 3) 0, src.getD (x * 3 + 1) 0, src.getD (x * 3 + 2) 0, 255])).flatten

/-- `DecodeRow32bpp`: one canonical row from a 32-bit source row (bitfield
masks or direct bytes with alpha forced opaque). -/
def decodeRow32bpp (src : Bytes) (width rMask gMask bMask aMask : Nat)
    (useMasks : Bool) : Bytes :=
  ((List.range width).map (fun x =>
    if useMasks ∧ rMask ≠ 0 ∧ gMask ≠ 0 ∧ bMask ≠ 0 then
      let pixel := rd32 src (x * 4)
      [extractMaskedComponent pixel bMask, extractMaskedComponent pixel gMask,
       extractMaskedComponent pixel rMask,
       if aMask ≠ 0 then extractMaskedComponent pixel aMask else 255]
    else
      [src.getD (x * 4) 0, src.getD (x * 4 + 1) 0, src.getD (x * 4 + 2) 0, 255])).flatten

/-- Parsed and validated BMP header (`BmpHeader` in the source). -/
structure BmpHeader where
  width : Nat
  height : Nat
  bitCount : Nat
  planes : Nat
  compression : Nat
  colorsUsed : Nat
  headerSize : Nat
  topDown : Bool
  redMask : Nat
  greenMask : Nat
  blueMask : Nat
  alphaMask : Nat
  pixelDataOffset : Nat
deriving Repr, DecidableEq

/-- The info-header branch of `ParseBmpHeader`: dispatch on the declared
header length (12 = legacy core header, >= 40 = modern header). -/
def parseBmpHeaderBranch (file : Bytes) : Except CKBitmapError (BmpHeader × Nat) :=
    let pixelDataOffset := rd32 file 10
    let headerSize := rd32 file 14
    if headerSize = 12 then
        if file.length < 26 then .error .readError
        else .ok ({ width := rd16 file 18, height := rd16 file 20,
                    planes := rd16 file 22, bitCount := rd16 file 24,
                    compression := 0, colorsUsed := 0, headerSize := headerSize,
                    topDown := false, redMask := 0, greenMask := 0, blueMask := 0,
                    alphaMask := 0, pixelDataOffset := pixelDataOffset }, 26)
      else if headerSize ≥ 40 then
        if file.length < 54 then .error .readError
        else
          let tell := if headerSize > 40 then
              seekRelMem 54 file.length (ckdToInt (headerSize - 40))
            else 54
          let heightRaw := rd32 file 22
          let height := if heightRaw ≥ 2147483648 then 4294967296 - heightRaw
                        else heightRaw
          let topDown := decide (heightRaw ≥ 2147483648)
          let compression := rd32 file 30
          if compression = 4 ∨ compression = 5 then .error .unsupportedFile
          else if compression ≠ 0 ∧ compression ≠ 1 ∧ compression ≠ 2 ∧
                  compression ≠ 3 ∧ compression ≠ 6 then .error .unsupportedFile
          else
            let useBitfieldBlock := (compression = 3 ∨ compression = 6) ∧ headerSize ≥ 52
            .ok ({ width := rd32 file 18, height := height,
                   planes := rd16 file 26, bitCount := rd16 file 28,
                   compression := compression, colorsUsed := rd32 file 46,
                   headerSize := headerSize, topDown := topDown,
                   redMask := if useBitfieldBlock ∧ 58 ≤ file.length then rd32 file 54 else 0,
                   greenMask := if useBitfieldBlock ∧ 62 ≤ file.length then rd32 file 58 else 0,
                   blueMask := if useBitfieldBlock ∧ 66 ≤ file.length then rd32 file 62 else 0,
                   alphaMask := if useBitfieldBlock ∧ headerSize ≥ 56 ∧ 70 ≤ file.length
                                then rd32 file 66 else 0,
                   pixelDataOffset := pixelDataOffset }, tell)
      else .error .unsupportedFile

/-- `ParseBmpHeader` over a memory-backed source: returns the header and the
stream position (`Tell`) after the header bytes. -/
def parseBmpHeader (file : Bytes) : Except CKBitmapError (BmpHeader × Nat) :=
  if file.length < 14 then .error .readError
  else if rd16 file 0 ≠ 0x4D42 then .error .unsupportedFile
  else if file.length < 18 then .error .readError
  else
    match parseBmpHeaderBranch file with
    | .error e => .error e
    | .ok (hdr, tell) =>
      if hdr.width = 0 ∨ hdr.height = 0 then .error .fileCorrupted
      else if hdr.planes ≠ 1 then .error .fileCorrupted
      else if hdr.bitCount ≠ 1 ∧ hdr.bitCount ≠ 4 ∧ hdr.bitCount ≠ 8 ∧
              hdr.bitCount ≠ 16 ∧ hdr.bitCount ≠ 24 ∧ hdr.bitCount ≠ 32 then
        .error .unsupportedFile
      else if hdr.compression = 1 ∧ hdr.bitCount ≠ 8 then .error .unsupportedFile
      else if hdr.compression = 2 ∧ hdr.bitCount ≠ 4 then .error .unsupportedFile
      else .ok (hdr, tell)

/-- The inputs of the BMP pixel-decode stage, as assembled by `BMP_Read`
before any pixel is decoded. -/
structure BmpDecodeInput where
  hdr : BmpHeader
  palette : Bytes
  is3BytePalette : Bool
  paletteEntries : Nat
  srcStride : Nat
  pixelDataSize : Nat
  srcPixels : Bytes
  dstStride : Nat
  dstTotal : Nat
deriving Repr, DecidableEq

/-- The palette entry-count and byte-size computation of `BMP_Read`
(entry count of 0 or above `2^depth` is FileCorrupted; 16/32-bit bitfield
images with a short header read the mask block as palette bytes). -/
def bmpPaletteSizing (hdr0 : BmpHeader) : Except CKBitmapError (Nat × Nat) :=
  let is3 := hdr0.headerSize = 12
  if hdr0.bitCount ≤ 8 then
    let maxColors := 2 ^ hdr0.bitCount
    let entries := if hdr0.colorsUsed ≠ 0 then hdr0.colorsUsed else maxColors
    if entries = 0 ∨ entries > maxColors then .error .fileCorrupted
    else .ok (entries, entries * (if is3 then 3 else 4))
  else if (hdr0.compression = 3 ∨ hdr0.compression = 6) ∧ hdr0.headerSize < 52 then
    .ok (0, if hdr0.compression = 6 then 16 else 12)
  else .ok (0, 0)

/-- Mask extraction from the palette block for 16/32-bit bitfield images with
a short (< 52 byte) info header. -/
def bmpResolveMasks (hdr0 : BmpHeader) (palette : Bytes) (paletteSize : Nat) :
    BmpHeader :=
  if (hdr0.compression = 3 ∨ hdr0.compression = 6) ∧ hdr0.bitCount > 8 ∧
     hdr0.headerSize < 52 then
    { hdr0 with redMask := rd32 palette 0, greenMask := rd32 palette 4,
                blueMask := rd32 palette 8,
                alphaMask := if paletteSize ≥ 16 then rd32 palette 12
                             else hdr0.alphaMask }
  else hdr0

/-- The fallible stages of `BMP_Read` before pixel decoding: header parse,
palette/mask resolution, pixel-offset validation, stride/size computation and
the destination-size check. -/
def bmpStages (file : Bytes) : Except CKBitmapError BmpDecodeInput :=
  match parseBmpHeader file with
  | .error e => .error e
  | .ok (hdr0, tell0) =>
    let is3 := hdr0.headerSize = 12
    match bmpPaletteSizing hdr0 with
    | .error e => .error e
    | .ok (paletteEntries, paletteSize) =>
      if paletteSize > 0 ∧ ¬(tell0 + paletteSize ≤ file.length) then .error .readError
      else
        let palette : Bytes :=
          if paletteSize > 0 then (file.drop tell0).take paletteSize else []
        let hdr := bmpResolveMasks hdr0 palette paletteSize
        let tell1 := tell0 + paletteSize
        if hdr.pixelDataOffset < tell1 then .error .fileCorrupted
        else
          let pos := if hdr.pixelDataOffset ≤ file.length then hdr.pixelDataOffset
                     else tell1
          let srcStride := (hdr.width * hdr.bitCount + 31) / 32 * 4
          if srcStride > 4294967295 then .error .fileCorrupted
          else if (hdr.compression = 0 ∨ hdr.compression = 3 ∨ hdr.compression = 6) ∧
                  srcStride * hdr.height > 4294967295 then .error .fileCorrupted
          else
            let pixelDataSize :=
              if hdr.compression = 0 ∨ hdr.compression = 3 ∨ hdr.compression = 6 then
                srcStride * hdr.height
              else file.length - pos
            let srcPixels :=
              if pos + pixelDataSize ≤ file.length then (file.drop pos).take pixelDataSize
              else List.replicate pixelDataSize 0
            let dstStride := ckd (hdr.width * 4)
            let dstTotal := dstStride * hdr.height
            if dstTotal > 4294967295 then .error .fileCorrupted
            else .ok { hdr := hdr, palette := palette, is3BytePalette := is3,
                       paletteEntries := paletteEntries, srcStride := srcStride,
                       pixelDataSize := pixelDataSize, srcPixels := srcPixels,
                       dstStride := dstStride, dstTotal := dstTotal }

/-- The pixel-decode stage of `BMP_Read`: infallible; the destination starts
filled with 0xFF and is overwritten by the per-compression decoder. -/
def bmpDecode (di : BmpDecodeInput) : List Nat :=
  if di.hdr.compression = 1 then
    (decodeRLE8
      { src := di.srcPixels, srcSize := di.pixelDataSize, srcPos := 0,
        dst := List.replicate di.dstTotal 255, dstStride := di.dstStride,
        width := di.hdr.width, height := di.hdr.height,
        topDown := di.hdr.topDown, palette := di.palette,
        is3BytePalette := di.is3BytePalette, paletteEntries := di.paletteEntries,
        x := 0, y := if di.hdr.topDown then 0 else ckdSub di.hdr.height 1 }).dst
  else if di.hdr.compression = 2 then
    (decodeRLE4
      { src := di.srcPixels, srcSize := di.pixelDataSize, srcPos := 0,
        dst := List.replicate di.dstTotal 255, dstStride := di.dstStride,
        width := di.hdr.width, height := di.hdr.height,
        topDown := di.hdr.topDown, palette := di.palette,
        is3BytePalette := di.is3BytePalette, paletteEntries := di.paletteEntries,
        x := 0, y := if di.hdr.topDown then 0 else ckdSub di.hdr.height 1 }).dst
  else
    ((List.range di.hdr.height).map (fun y =>
      let srcY := if di.hdr.topDown then y else di.hdr.height - 1 - y
      let srcRow := di.srcPixels.drop (srcY * di.srcStride)
      let useMasks := di.hdr.compression = 3 ∨ di.hdr.compression = 6
      if di.hdr.bitCount = 1 then
        decodeRow1bpp srcRow di.hdr.width di.palette di.is3BytePalette di.paletteEntries
      else if di.hdr.bitCount = 4 then
        decodeRow4bpp srcRow di.hdr.width di.palette di.is3BytePalette di.paletteEntries
      else if di.hdr.bitCount = 8 then
        decodeRow8bpp srcRow di.hdr.width di.palette di.is3BytePalette di.paletteEntries
      else if di.hdr.bitCount = 16 then
        decodeRow16bpp srcRow di.hdr.width di.hdr.redMask di.hdr.greenMask
          di.hdr.blueMask di.hdr.alphaMask useMasks
      else if di.hdr.bitCount = 24 then
        decodeRow24bpp srcRow di.hdr.width
      else if di.hdr.bitCount = 32 then
        decodeRow32bpp srcRow di.hdr.width di.hdr.redMask di.hdr.greenMask
          di.hdr.blueMask di.hdr.alphaMask useMasks
      else
        List.replicate (di.hdr.width * 4) 255)).flatten

/-- `BMP_Read` over a memory-backed source: stages, decode, and the
`FillFormatBGRA32` result descriptor. -/
def bmpRead (file : Bytes) : Except CKBitmapError VxImageDescEx :=
  match bmpStages file with
  | .error e => .error e
  | .ok di =>
    .ok (fillFormatBGRA32 di.hdr.width di.hdr.height di.dstStride (bmpDecode di))

/-- `ToGray`: luma from a canonical (B,G,R) pixel, truncated to a byte. -/
def toGray (b g r : Nat) : Nat := (r * 299 + g * 587 + b * 114) / 1000 % 256

/-- `RLE8::EncodeRow`'s run scan: length of the run of bytes equal to `v`
starting at `x` (capped at 255 and at the row end). -/
def scanRun (row : Bytes) (width x v run : Nat) : Nat :=
  if x + run < width ∧ run < 255 ∧ row.getD (x + run) 0 = v then
    scanRun row width x v (run + 1)
  else run
termination_by 255 - run

/-- `RLE8::EncodeRow`'s literal scan: grow the literal run until a pair of
equal adjacent bytes is ahead (capped at 255 and at the row end). -/
def scanLit (row : Bytes) (width x lit : Nat) : Nat :=
  if x + lit < width ∧ lit < 255 then
    if x + lit + 1 < width ∧ row.getD (x + lit) 0 = row.getD (x + lit + 1) 0 then lit
    else scanLit row width x (lit + 1)
  else lit
termination_by 255 - lit

theorem scanRun_le_aux (row : Bytes) (width x v : Nat) :
    ∀ f run, 255 - run ≤ f → run ≤ scanRun row width x v run := by
  intro f
  induction f with
  | zero =>
    intro run h
    unfold scanRun
    split
    · next hc => exact absurd hc.2.1 (by omega)
    · exact Nat.le_refl _
  | succ n ih =>
    intro run h
    unfold scanRun
    split
    · next hc => exact le_trans (Nat.le_succ run) (ih (run + 1) (by omega))
    · exact Nat.le_refl _

theorem scanRun_le (row : Bytes) (width x v run : Nat) :
    run ≤ scanRun row width x v run :=
  scanRun_le_aux row width x v 255 run (by omega)

theorem scanLit_le_aux (row : Bytes) (width x : Nat) :
    ∀ f lit, 255 - lit ≤ f → lit ≤ scanLit row width x lit := by
  intro f
  induction f with
  | zero =>
    intro lit h
    unfold scanLit
    split
    · next hc =>
      split
      · exact Nat.le_refl _
      · exact absurd hc.2 (by omega)
    · exact Nat.le_refl _
  | succ n ih =>
    intro lit h
    unfold scanLit
    split
    · next hc =>
      split
      · exact Nat.le_refl _
      · exact le_trans (Nat.le_succ lit) (ih (lit + 1) (by omega))
    · exact Nat.le_refl _

theorem scanLit_le (row : Bytes) (width x lit : Nat) :
    lit ≤ scanLit row width x lit :=
  scanLit_le_aux row width x 255 lit (by omega)

/-- `RLE8::EncodeRow` from position `x`: alternate run tokens and
literal/absolute tokens until the row is consumed. -/
def encodeRowFrom (row : Bytes) (width x : Nat) : Bytes :=
  if hx : x < width then
    let v := row.getD x 0
    let runLen := scanRun row width x v 1
    if runLen ≥ 2 then
      runLen % 256 :: v :: encodeRowFrom row width (x + runLen)
    else
      let litLen := scanLit row width x 1
      (if litLen ≥ 3 then
        0 :: litLen % 256 ::
          ((row.drop x).take litLen ++ (if litLen % 2 = 1 then [0] else []))
      else
        ((List.range litLen).map (fun i => [1, row.getD (x + i) 0])).flatten)
      ++ encodeRowFrom row width (x + litLen)
  else []
termination_by width - x
decreasing_by
  · have := scanRun_le row width x (row.getD x 0) 1
    omega
  · have := scanLit_le row width x 1
    omega

/-- One 8-bit grayscale row for saving, taken bottom-up from the canonical
buffer (`ToGray` of each B,G,R triple). -/
def grayRow (src : Bytes) (srcStride width height y : Nat) : Bytes :=
  (List.range width).map (fun x =>
    toGray (src.getD ((height - 1 - y) * srcStride + x * 4) 0)
           (src.getD ((height - 1 - y) * srcStride + x * 4 + 1) 0)
           (src.getD ((height - 1 - y) * srcStride + x * 4 + 2) 0))

/-- `BITMAPFILEHEADER` bytes as written by `BMP_Save`. -/
def bmpFileHeader (fileSize offBits : Nat) : Bytes :=
  [0x42, 0x4D] ++ wr32 fileSize ++ [0, 0, 0, 0] ++ wr32 offBits

/-- `BITMAPINFOHEADER` bytes as written by `BMP_Save` (biSize 40, planes 1,
2835 pels per meter, no important colors). -/
def bmpInfoHeader (width height bitCount compression sizeImage clrUsed : Nat) :
    Bytes :=
  wr32 40 ++ wr32 width ++ wr32 height ++ wr16 1 ++ wr16 bitCount ++
  wr32 compression ++ wr32 sizeImage ++ wr32 2835 ++ wr32 2835 ++
  wr32 clrUsed ++ wr32 0

/-- The identity-ramp grayscale palette written for 8-bit saves. -/
def bmpGrayPalette : Bytes := ((List.range 256).map (fun i => [i, i, i, 0])).flatten

/-- One stored pixel row of `BMP_Save`'s uncompressed payload at `y` (rows are
written bottom-up; alignment padding bytes, uninitialized in C, are zero). -/
def bmpSaveRow (src : Bytes) (srcStride width height headerBitDepth dstStride y : Nat) :
    Bytes :=
  if headerBitDepth = 8 then
    grayRow src srcStride width height y ++ List.replicate (dstStride - width) 0
  else if headerBitDepth = 24 then
    ((List.range width).map (fun x =>
      [src.getD ((height - 1 - y) * srcStride + x * 4) 0,
       src.getD ((height - 1 - y) * srcStride + x * 4 + 1) 0,
       src.getD ((height - 1 - y) * srcStride + x * 4 + 2) 0])).flatten ++
    List.replicate (dstStride - 3 * width) 0
  else
    (List.range (width * 4)).map (fun j =>
      src.getD ((height - 1 - y) * srcStride + j) 0)

/-- `BMP_Save` (memory output): `none` models the `return 0` failure paths
(empty image); otherwise the produced file bytes. A `bitDepth` outside
{8, 9, 24, 32} is silently replaced by 24. -/
def bmpSave (fmt : VxImageDescEx) (bitDepth0 : Nat) : Option Bytes :=
  if fmt.Width = 0 ∨ fmt.Height = 0 then none
  else
    let bitDepth := if bitDepth0 ≠ 8 ∧ bitDepth0 ≠ 9 ∧ bitDepth0 ≠ 24 ∧ bitDepth0 ≠ 32
                    then 24 else bitDepth0
    let useRle8 := bitDepth = 9
    let headerBitDepth := if useRle8 then 8 else bitDepth
    let width := fmt.Width
    let height := fmt.Height
    let src := fmt.Image
    let srcStride := fmt.BytesPerLine
    let dstStride := ckd ((ckd (width * headerBitDepth) + 31) / 32 * 4)
    let paletteSize := if headerBitDepth = 8 then 1024 else 0
    let headerSize := 14 + 40 + paletteSize
    let rleData : Bytes :=
      ((List.range height).map (fun y =>
        encodeRowFrom (grayRow src srcStride width height y) width 0 ++ [0, 0])).flatten
      ++ [0, 1]
    let pixelDataSize := if useRle8 then ckd rleData.length else ckd (dstStride * height)
    let fileSize := ckd (headerSize + pixelDataSize)
    let pixelData : Bytes :=
      if useRle8 then rleData
      else ((List.range height).map
        (bmpSaveRow src srcStride width height headerBitDepth dstStride)).flatten
    some (bmpFileHeader fileSize headerSize ++
          bmpInfoHeader width height headerBitDepth (if useRle8 then 1 else 0)
            pixelDataSize (if headerBitDepth = 8 then 256 else 0) ++
          (if headerBitDepth = 8 then bmpGrayPalette else []) ++
          pixelData)

/-- `TGAHEADER`: the fixed 18-byte TGA header, field by field. -/
structure TgaHeader where
  idLength : Nat
  colorMapType : Nat
  imageType : Nat
  colorMapOrigin : Nat
  colorMapLength : Nat
  colorMapDepth : Nat
  xOrigin : Nat
  yOrigin : Nat
  width : Nat
  height : Nat
  pixelDepth : Nat
  imageDescriptor : Nat
deriving Repr, DecidableEq

/-- Decode the raw 18 header bytes into a `TgaHeader`. -/
def tgaHeaderOfBytes (file : Bytes) : TgaHeader :=
  { idLength := file.getD 0 0
    colorMapType := file.getD 1 0
    imageType := file.getD 2 0
    colorMapOrigin := rd16 file 3
    colorMapLength := rd16 file 5
    colorMapDepth := file.getD 7 0
    xOrigin := rd16 file 8
    yOrigin := rd16 file 10
    width := rd16 file 12
    height := rd16 file 14
    pixelDepth := file.getD 16 0
    imageDescriptor := file.getD 17 0 }

/-- `TgaContext`: decode parameters derived from the TGA header. -/
structure TgaContext where
  header : TgaHeader
  width : Nat
  height : Nat
  pixelDepth : Nat
  srcBytesPerPixel : Nat
  alphaBits : Nat
  interleaveMode : Nat
  isRLE : Bool
  hasColorMap : Bool
  isGrayscale : Bool
  isRightToLeft : Bool
  isTopDown : Bool
  colorMap : Bytes
  colorMapEntries : Nat
  colorMapBytesPerEntry : Nat
deriving Repr, DecidableEq

/-- The `imageType` dispatch of `ParseTgaHeader`:
(hasColorMap, isGrayscale, isRLE) flags; unknown types are UnsupportedFile. -/
def tgaTypeFlags (imageType : Nat) : Except CKBitmapError (Bool × Bool × Bool) :=
  if imageType = 1 then .ok (true, false, false)
  else if imageType = 2 then .ok (false, false, false)
  else if imageType = 3 then .ok (false, true, false)
  else if imageType = 9 then .ok (true, false, true)
  else if imageType = 10 then .ok (false, false, true)
  else if imageType = 11 then .ok (false, true, true)
  else .error .unsupportedFile

/-- The color-map reading stage of `ParseTgaHeader`: the color-map bytes, the
entry count, the bytes per entry and the stream position after the map. -/
def tgaColorMapStage (file : Bytes) (hdr : TgaHeader) (pos : Nat) :
    Except CKBitmapError (Bytes × Nat × Nat × Nat) :=
  if hdr.colorMapType = 1 ∧ hdr.colorMapLength > 0 then
    let entries := hdr.colorMapLength
    let bpe := (hdr.colorMapDepth + 7) / 8
    if bpe = 0 then .error .fileCorrupted
    else if entries * bpe > 4294967295 then .error .fileCorrupted
    else if pos + entries * bpe ≤ file.length then
      .ok ((file.drop pos).take (entries * bpe), entries, bpe,
        pos + entries * bpe)
    else .error .readError
  else .ok ([], 0, 0, pos)

/-- `ParseTgaHeader` over a memory source: the context plus the stream
position after the header, image-ID field, and color map. -/
def parseTgaHeader (file : Bytes) : Except CKBitmapError (TgaContext × Nat) :=
  if file.length < 18 then .error .readError
  else
    let hdr := tgaHeaderOfBytes file
    match tgaTypeFlags hdr.imageType with
    | .error e => .error e
    | .ok (hasColorMap, isGrayscale, isRLE) =>
      let pixelDepth := hdr.pixelDepth
      let interleaveMode := hdr.imageDescriptor >>> 6 &&& 3
      if hdr.width = 0 ∨ hdr.height = 0 then .error .fileCorrupted
      else if interleaveMode = 3 then .error .unsupportedFile
      else if hdr.idLength > 0 ∧ ¬(18 + hdr.idLength ≤ file.length) then
        .error .readError
      else
        let pos := if hdr.idLength > 0 then 18 + hdr.idLength else 18
        match tgaColorMapStage file hdr pos with
        | .error e => .error e
        | .ok (colorMap, colorMapEntries, colorMapBytesPerEntry, pos) =>
          let ctx : TgaContext :=
            { header := hdr, width := hdr.width, height := hdr.height,
              pixelDepth := pixelDepth, srcBytesPerPixel := (pixelDepth + 7) / 8,
              alphaBits := hdr.imageDescriptor &&& 15,
              interleaveMode := interleaveMode,
              isRLE := isRLE, hasColorMap := hasColorMap,
              isGrayscale := isGrayscale,
              isRightToLeft := decide (hdr.imageDescriptor &&& 16 ≠ 0),
              isTopDown := decide (hdr.imageDescriptor &&& 32 ≠ 0),
              colorMap := colorMap, colorMapEntries := colorMapEntries,
              colorMapBytesPerEntry := colorMapBytesPerEntry }
          if hasColorMap then
            if hdr.colorMapType ≠ 1 ∨ colorMap.length = 0 ∨ colorMapEntries = 0 ∨
               colorMapBytesPerEntry = 0 then .error .fileCorrupted
            else if pixelDepth ≠ 8 ∧ pixelDepth ≠ 16 then .error .unsupportedFile
            else if hdr.colorMapDepth ≠ 15 ∧ hdr.colorMapDepth ≠ 16 ∧
                    hdr.colorMapDepth ≠ 24 ∧ hdr.colorMapDepth ≠ 32 then
              .error .unsupportedFile
            else .ok (ctx, pos)
          else if isGrayscale then
            if pixelDepth ≠ 8 ∧ pixelDepth ≠ 16 then .error .unsupportedFile
            else .ok (ctx, pos)
          else
            if pixelDepth ≠ 15 ∧ pixelDepth ≠ 16 ∧ pixelDepth ≠ 24 ∧
               pixelDepth ≠ 32 then .error .unsupportedFile
            else .ok (ctx, pos)

/-- `DeinterleaveY`: reconstruct the logical scanline index from a stored one
under the TGA interleave modes. -/
def deinterleaveY (fileY height mode : Nat) : Nat :=
  if mode = 0 then fileY
  else if mode = 1 then
    let evenCount := (height + 1) / 2
    if fileY < evenCount then fileY * 2 else (fileY - evenCount) * 2 + 1
  else
    let c0 := (height + 3) / 4
    let c1 := (height + 2) / 4
    let c2 := (height + 1) / 4
    if fileY < c0 then fileY * 4
    else if fileY - c0 < c1 then (fileY - c0) * 4 + 1
    else if fileY - c0 - c1 < c2 then (fileY - c0 - c1) * 4 + 2
    else (fileY - c0 - c1 - c2) * 4 + 3

/-- `MapX`: mirror the column for right-to-left storage. -/
def mapX (x w : Nat) (rtl : Bool) : Nat := if rtl then w - 1 - x else x

/-- `MapY`: de-interleave, then flip for bottom-up storage. -/
def mapY (y h : Nat) (td : Bool) (mode : Nat) : Nat :=
  let logical := deinterleaveY y h mode
  if td then logical else h - 1 - logical

/-- `Decode15or16`: expand a 5-5-5(+1) sample to canonical B,G,R,A bytes. -/
def decode15or16 (c alphaBits : Nat) : Bytes :=
  [(c >>> 0 &&& 31) * 255 / 31, (c >>> 5 &&& 31) * 255 / 31,
   (c >>> 10 &&& 31) * 255 / 31,
   if alphaBits > 0 then (if c &&& 32768 ≠ 0 then 255 else 0) else 255]

/-- `DecodePaletteEntry`: look an index up in the color map; out-of-range
indices (after subtracting the origin) decode to opaque black. -/
def decodePaletteEntry (hdr : TgaHeader) (alphaBits : Nat) (colorMap : Bytes)
    (entries bytesPerEntry index : Nat) : Bytes :=
  if colorMap.length = 0 then [0, 0, 0, 255]
  else
    let idx : Int := (index : Int) - (hdr.colorMapOrigin : Int)
    if idx < 0 ∨ entries ≤ idx.toNat then [0, 0, 0, 255]
    else
      let e := idx.toNat * bytesPerEntry
      if hdr.colorMapDepth = 15 ∨ hdr.colorMapDepth = 16 then
        decode15or16 (rd16 colorMap e) (if hdr.colorMapDepth = 16 then alphaBits else 0)
      else if hdr.colorMapDepth = 24 then
        [colorMap.getD e 0, colorMap.getD (e + 1) 0, colorMap.getD (e + 2) 0, 255]
      else if hdr.colorMapDepth = 32 then
        [colorMap.getD e 0, colorMap.getD (e + 1) 0, colorMap.getD (e + 2) 0,
         colorMap.getD (e + 3) 0]
      else [0, 0, 0, 255]

/-- `DecodePixel`: decode one source sample (starting at the head of `src`)
into canonical B,G,R,A bytes. -/
def decodePixel (hdr : TgaHeader) (depth : Nat) (hasColorMap isGray : Bool)
    (alphaBits : Nat) (colorMap : Bytes) (cmEntries cmBytes : Nat)
    (src : Bytes) : Bytes :=
  if hasColorMap then
    decodePaletteEntry hdr alphaBits colorMap cmEntries cmBytes
      (if depth = 8 then src.getD 0 0 else rd16 src 0)
  else if isGray then
    [src.getD 0 0, src.getD 0 0, src.getD 0 0,
     if depth = 16 then src.getD 1 0 else 255]
  else if depth = 15 ∨ depth = 16 then
    decode15or16 (rd16 src 0) (if depth = 16 then alphaBits else 0)
  else if depth = 24 then
    [src.getD 0 0, src.getD 1 0, src.getD 2 0, 255]
  else if depth = 32 then
    [src.getD 0 0, src.getD 1 0, src.getD 2 0, src.getD 3 0]
  else [0, 0, 0, 255]

/-- `OutputHasAlpha`: does the effective source format carry a real alpha
channel. -/
def outputHasAlpha (hdr : TgaHeader) (depth : Nat) (hasColorMap isGray : Bool)
    (alphaBits : Nat) : Bool :=
  if hasColorMap then
    hdr.colorMapDepth = 32 ∨ (hdr.colorMapDepth = 16 ∧ alphaBits > 0)
  else if isGray then depth = 16
  else depth = 32 ∨ (depth = 16 ∧ alphaBits > 0)

/-- State of the TGA RLE decode loop. -/
structure TgaRleState where
  srcPos : Nat
  pixelCount : Nat
  dst : List Nat
deriving Repr

/-- Store one decoded pixel for linear pixel index `p`, mapped through the
orientation/interleave coordinate transform. -/
def tgaWritePixel (ctx : TgaContext) (dstStride : Nat) (dst : List Nat)
    (p : Nat) (pixel : Bytes) : List Nat :=
  let fx := p % ctx.width
  let fy := p / ctx.width
  let dx := mapX fx ctx.width ctx.isRightToLeft
  let dy := mapY fy ctx.height ctx.isTopDown ctx.interleaveMode
  writeBytes dst (dy * dstStride + dx * 4) pixel

/-- RLE-packet inner loop: repeat one decoded pixel until the packet count or
the total pixel budget is exhausted. -/
def tgaRunWrite (ctx : TgaContext) (dstStride total : Nat) (pixel : Bytes) :
    Nat → TgaRleState → TgaRleState
  | 0, st => st
  | n + 1, st =>
    if st.pixelCount < total then
      tgaRunWrite ctx dstStride total pixel n
        { st with dst := tgaWritePixel ctx dstStride st.dst st.pixelCount pixel
                  pixelCount := st.pixelCount + 1 }
    else st

/-- Raw-packet inner loop: decode literal pixels, stopping early when the
stream runs out of a whole pixel. -/
def tgaRawWrite (ctx : TgaContext) (dstStride total : Nat) (srcPixels : Bytes)
    (size bpp : Nat) : Nat → TgaRleState → TgaRleState
  | 0, st => st
  | n + 1, st =>
    if st.pixelCount < total then
      if st.srcPos + bpp > size then st
      else
        let px := decodePixel ctx.header ctx.pixelDepth ctx.hasColorMap
          ctx.isGrayscale ctx.alphaBits ctx.colorMap ctx.colorMapEntries
          ctx.colorMapBytesPerEntry (srcPixels.drop st.srcPos)
        tgaRawWrite ctx dstStride total srcPixels size bpp n
          { srcPos := st.srcPos + bpp
            pixelCount := st.pixelCount + 1
            dst := tgaWritePixel ctx dstStride st.dst st.pixelCount px }
    else st

theorem tgaRunWrite_srcPos (ctx : TgaContext) (dstStride total : Nat)
    (pixel : Bytes) (n : Nat) (st : TgaRleState) :
    (tgaRunWrite ctx dstStride total pixel n st).srcPos = st.srcPos := by
  induction n generalizing st with
  | zero => rfl
  | succ n ih =>
    unfold tgaRunWrite
    split
    · exact ih _
    · rfl

theorem tgaRawWrite_srcPos_le (ctx : TgaContext) (dstStride total : Nat)
    (srcPixels : Bytes) (size bpp : Nat) (n : Nat) (st : TgaRleState) :
    st.srcPos ≤ (tgaRawWrite ctx dstStride total srcPixels size bpp n st).srcPos := by
  induction n generalizing st with
  | zero => exact Nat.le_refl _
  | succ n ih =>
    unfold tgaRawWrite
    split
    · split
      · exact Nat.le_refl _
      · exact le_trans (by simp) (ih _)
    · exact Nat.le_refl _

/-- The TGA RLE decode loop (`TGA_Read`'s `isRLE` branch): one iteration per
packet; the loop stops at stream exhaustion or once the pixel budget is met. -/
def tgaRleLoop (ctx : TgaContext) (srcPixels : Bytes) (size bpp total dstStride : Nat)
    (st : TgaRleState) : TgaRleState :=
  if h : st.pixelCount < total ∧ st.srcPos < size then
    let packet := srcPixels.getD st.srcPos 0
    let st1 : TgaRleState := { st with srcPos := st.srcPos + 1 }
    let count := (packet &&& 127) + 1
    if packet &&& 128 ≠ 0 then
      if st1.srcPos + bpp > size then st1
      else
        let pixel := decodePixel ctx.header ctx.pixelDepth ctx.hasColorMap
          ctx.isGrayscale ctx.alphaBits ctx.colorMap ctx.colorMapEntries
          ctx.colorMapBytesPerEntry (srcPixels.drop st1.srcPos)
        tgaRleLoop ctx srcPixels size bpp total dstStride
          (tgaRunWrite ctx dstStride total pixel count
            { st1 with srcPos := st1.srcPos + bpp })
    else
      tgaRleLoop ctx srcPixels size bpp total dstStride
        (tgaRawWrite ctx dstStride total srcPixels size bpp count st1)
  else st
termination_by size - st.srcPos
decreasing_by
  · obtain ⟨_, h2⟩ := h
    have := tgaRunWrite_srcPos ctx dstStride total
      (decodePixel ctx.header ctx.pixelDepth ctx.hasColorMap ctx.isGrayscale
        ctx.alphaBits ctx.colorMap ctx.colorMapEntries ctx.colorMapBytesPerEntry
        (srcPixels.drop (st.srcPos + 1)))
      ((srcPixels.getD st.srcPos 0 &&& 127) + 1)
      { st with srcPos := st.srcPos + 1 + bpp }
    simp_all
    omega
  · obtain ⟨_, h2⟩ := h
    have := tgaRawWrite_srcPos_le ctx dstStride total srcPixels size bpp
      ((srcPixels.getD st.srcPos 0 &&& 127) + 1) { st with srcPos := st.srcPos + 1 }
    simp_all
    omega

/-- The final state of the TGA RLE packet loop for a parsed context. -/
def tgaRleResult (file : Bytes) (ctx : TgaContext) (pos : Nat) : TgaRleState :=
  tgaRleLoop ctx (file.drop pos) (file.drop pos).length ctx.srcBytesPerPixel
    (ctx.width * ctx.height) (ctx.width * 4)
    { srcPos := 0, pixelCount := 0,
      dst := List.replicate (ctx.width * 4 * ctx.height) 255 }

/-- `TGA_Read` over a memory-backed source. -/
def tgaRead (file : Bytes) : Except CKBitmapError VxImageDescEx :=
  match parseTgaHeader file with
  | .error e => .error e
  | .ok (ctx, pos) =>
    let srcPixels := file.drop pos
    let dstStride := ctx.width * 4
    if dstStride * ctx.height > 4294967295 then .error .fileCorrupted
    else if ctx.isRLE then
      let total := ctx.width * ctx.height
      let fin := tgaRleResult file ctx pos
      if fin.pixelCount ≠ total then .error .fileCorrupted
      else .ok (fillFormatBGRA32 ctx.width ctx.height dstStride fin.dst)
    else if ctx.width * ctx.srcBytesPerPixel > 4294967295 then
      .error .fileCorrupted
    else
      let srcStride := ctx.width * ctx.srcBytesPerPixel
      let dst := (List.range ctx.height).foldl (fun d fy =>
        (List.range ctx.width).foldl (fun d fx =>
          let dx := mapX fx ctx.width ctx.isRightToLeft
          let dy := mapY fy ctx.height ctx.isTopDown ctx.interleaveMode
          writeBytes d (dy * dstStride + dx * 4)
            (decodePixel ctx.header ctx.pixelDepth ctx.hasColorMap ctx.isGrayscale
              ctx.alphaBits ctx.colorMap ctx.colorMapEntries ctx.colorMapBytesPerEntry
              (srcPixels.drop (fy * srcStride + fx * ctx.srcBytesPerPixel)))) d)
        (List.replicate (dstStride * ctx.height) 255)
      .ok (fillFormatBGRA32 ctx.width ctx.height dstStride dst)

/-- Fetch byte `k` of the canonical pixel with linear bottom-up index `idx`
(the TGA encoder's pixel access pattern). -/
def tgaPixAt (src : Bytes) (srcStride width height idx k : Nat) : Nat :=
  src.getD ((height - 1 - idx / width) * srcStride + idx % width * 4 + k) 0

/-- Compare the first `dstBpp` bytes of the canonical pixels at linear
indices `a` and `b`. -/
def tgaSamePix (src : Bytes) (srcStride width height dstBpp a b : Nat) : Prop :=
  ∀ i < dstBpp, tgaPixAt src srcStride width height a i =
    tgaPixAt src srcStride width height b i

instance (src : Bytes) (srcStride width height dstBpp a b : Nat) :
    Decidable (tgaSamePix src srcStride width height dstBpp a b) := by
  unfold tgaSamePix; infer_instance

/-- The TGA RLE encoder's run scan: identical-pixel run length from
`runStart`, capped at 128 and at the pixel budget. -/
def tgaRleScan (src : Bytes) (srcStride width height dstBpp total runStart : Nat)
    (count : Nat) : Nat :=
  if count < 128 ∧ runStart + count < total ∧
     tgaSamePix src srcStride width height dstBpp (runStart + count) runStart then
    tgaRleScan src srcStride width height dstBpp total runStart (count + 1)
  else count
termination_by 128 - count

/-- The TGA RLE encoder's 3-identical-lookahead at position `cs`. -/
def tgaSameCount (src : Bytes) (srcStride width height dstBpp total cs : Nat)
    (sameCount : Nat) : Nat :=
  if sameCount < 3 ∧ cs + sameCount < total ∧
     tgaSamePix src srcStride width height dstBpp (cs + sameCount) cs then
    tgaSameCount src srcStride width height dstBpp total cs (sameCount + 1)
  else sameCount
termination_by 3 - sameCount

/-- The TGA RLE encoder's raw (literal) scan: grow the literal run until a run
of at least 3 identical pixels is ahead, capped at 128. -/
def tgaRawScan (src : Bytes) (srcStride width height dstBpp total runStart : Nat)
    (rawCount : Nat) : Nat :=
  if rawCount < 128 ∧ runStart + rawCount < total then
    if tgaSameCount src srcStride width height dstBpp total (runStart + rawCount) 1 ≥ 3 then
      rawCount
    else tgaRawScan src srcStride width height dstBpp total runStart (rawCount + 1)
  else rawCount
termination_by 128 - rawCount

theorem tgaRleScan_le (src : Bytes) (srcStride width height dstBpp total runStart : Nat) :
    ∀ f count, 128 - count ≤ f →
      count ≤ tgaRleScan src srcStride width height dstBpp total runStart count := by
  intro f
  induction f with
  | zero =>
    intro count h
    unfold tgaRleScan
    split
    · next hc => exact absurd hc.1 (by omega)
    · exact Nat.le_refl _
  | succ n ih =>
    intro count h
    unfold tgaRleScan
    split
    · exact le_trans (Nat.le_succ count) (ih (count + 1) (by omega))
    · exact Nat.le_refl _

theorem tgaRawScan_le (src : Bytes) (srcStride width height dstBpp total runStart : Nat) :
    ∀ f rawCount, 128 - rawCount ≤ f →
      rawCount ≤ tgaRawScan src srcStride width height dstBpp total runStart rawCount := by
  intro f
  induction f with
  | zero =>
    intro rawCount h
    unfold tgaRawScan
    split
    · next hc =>
      split
      · exact Nat.le_refl _
      · exact absurd hc.1 (by omega)
    · exact Nat.le_refl _
  | succ n ih =>
    intro rawCount h
    unfold tgaRawScan
    split
    · split
      · exact Nat.le_refl _
      · exact le_trans (Nat.le_succ rawCount) (ih (rawCount + 1) (by omega))
    · exact Nat.le_refl _

/-- The TGA RLE encoder's packet loop from linear pixel `pixelIndex`. -/
def tgaRleEncode (src : Bytes) (srcStride width height dstBpp total pixelIndex : Nat) :
    Bytes :=
  if hx : pixelIndex < total then
    let rleCount := tgaRleScan src srcStride width height dstBpp total pixelIndex 1
    if rleCount ≥ 3 then
      (128 + (rleCount - 1)) ::
        ((List.range dstBpp).map (tgaPixAt src srcStride width height pixelIndex) ++
         tgaRleEncode src srcStride width height dstBpp total (pixelIndex + rleCount))
    else
      let rawCount := tgaRawScan src srcStride width height dstBpp total pixelIndex 1
      (rawCount - 1) ::
        (((List.range rawCount).map (fun i =>
            (List.range dstBpp).map
              (tgaPixAt src srcStride width height (pixelIndex + i)))).flatten ++
         tgaRleEncode src srcStride width height dstBpp total (pixelIndex + rawCount))
  else []
termination_by total - pixelIndex
decreasing_by
  · have := tgaRleScan_le src srcStride width height dstBpp total pixelIndex 128 1 (by omega)
    omega
  · have := tgaRawScan_le src srcStride width height dstBpp total pixelIndex 128 1 (by omega)
    omega

/-- The 18 header bytes written by `TGA_Save`. -/
def tgaSaveHeader (width height bitDepth : Nat) (useRLE : Bool) : Bytes :=
  [0, 0, if useRLE then 10 else 2, 0, 0, 0, 0, 0, 0, 0, 0, 0,
   width % 256, width / 256 % 256, height % 256, height / 256 % 256,
   bitDepth, if bitDepth = 32 then 8 else 0]

/-- `TGA_Save` (memory output): `none` models the `return 0` failure paths;
a `bitDepth` outside {24, 32} is silently replaced by 24. -/
def tgaSave (fmt : VxImageDescEx) (bitDepth0 : Nat) (useRLE : Bool) : Option Bytes :=
  if fmt.Width = 0 ∨ fmt.Height = 0 then none
  else
    let bitDepth := if bitDepth0 ≠ 24 ∧ bitDepth0 ≠ 32 then 24 else bitDepth0
    let dstBpp := bitDepth / 8
    let width := fmt.Width
    let height := fmt.Height
    let src := fmt.Image
    let srcStride := fmt.BytesPerLine
    let payload : Bytes :=
      if useRLE then
        tgaRleEncode src srcStride width height dstBpp (width * height) 0
      else
        ((List.range height).map (fun y =>
          ((List.range width).map (fun x =>
            (List.range dstBpp).map (fun i =>
              src.getD ((height - 1 - y) * srcStride + x * 4 + i) 0))).flatten)).flatten
    some (tgaSaveHeader width height bitDepth useRLE ++ payload)

/-- `PCXHEADER`: the fields of the 128-byte PCX header that the reader uses. -/
structure PcxHeader where
  manufacturer : Nat
  version : Nat
  encoding : Nat
  bitsPerPixel : Nat
  xMin : Nat
  yMin : Nat
  xMax : Nat
  yMax : Nat
  colorMap : Bytes
  nPlanes : Nat
  bytesPerLine : Nat
  paletteInfo : Nat
deriving Repr, DecidableEq

/-- Decode the raw 128 header bytes into a `PcxHeader`. -/
def pcxHeaderOfBytes (file : Bytes) : PcxHeader :=
  { manufacturer := file.getD 0 0
    version := file.getD 1 0
    encoding := file.getD 2 0
    bitsPerPixel := file.getD 3 0
    xMin := rd16 file 4
    yMin := rd16 file 6
    xMax := rd16 file 8
    yMax := rd16 file 10
    colorMap := (file.drop 16).take 48
    nPlanes := file.getD 65 0
    bytesPerLine := rd16 file 66
    paletteInfo := rd16 file 68 }

/-- `xMax - xMin + 1` computed in `int` arithmetic and stored to a CKDWORD
(an inverted range wraps to a huge value, caught by the 32768 cap). -/
def pcxDim (mx mn : Nat) : Nat :=
  (((mx : Int) - (mn : Int) + 1).emod 4294967296).toNat

/-- The built-in default 16-color EGA palette (RGB triplets). -/
def egaPalette : Bytes :=
  [0x00, 0x00, 0x00, 0x00, 0x00, 0xAA, 0x00, 0xAA, 0x00, 0x00, 0xAA, 0xAA,
   0xAA, 0x00, 0x00, 0xAA, 0x00, 0xAA, 0xAA, 0x55, 0x00, 0xAA, 0xAA, 0xAA,
   0x55, 0x55, 0x55, 0x55, 0x55, 0xFF, 0x55, 0xFF, 0x55, 0x55, 0xFF, 0xFF,
   0xFF, 0x55, 0x55, 0xFF, 0x55, 0xFF, 0xFF, 0xFF, 0x55, 0xFF, 0xFF, 0xFF]

/-- `GetPal16`: R,G,B of 16-color palette entry `idx` (masked to 4 bits), from
either the built-in EGA default or the header palette. -/
def getPal16 (hdr : PcxHeader) (useDefault : Bool) (idx : Nat) : Nat × Nat × Nat :=
  let idx := idx &&& 15
  if useDefault then
    (egaPalette.getD (idx * 3) 0, egaPalette.getD (idx * 3 + 1) 0,
     egaPalette.getD (idx * 3 + 2) 0)
  else
    (hdr.colorMap.getD (idx * 3) 0, hdr.colorMap.getD (idx * 3 + 1) 0,
     hdr.colorMap.getD (idx * 3 + 2) 0)

/-- `PcxContext`: decode parameters derived from the PCX header. -/
structure PcxContext where
  header : PcxHeader
  width : Nat
  height : Nat
  bytesPerScanLine : Nat
  isPlanar1bpp : Bool
  isPacked2bpp : Bool
  isPacked4bpp : Bool
  isIndexed8bpp : Bool
  isTrueColor24 : Bool
  isTrueColor32 : Bool
  forceDefaultEga : Bool
deriving Repr, DecidableEq

/-- `ParsePcxHeader`: header validation and mode classification. -/
def parsePcxHeader (file : Bytes) : Except CKBitmapError PcxContext :=
  if file.length < 128 then .error .readError
  else
    let hdr := pcxHeaderOfBytes file
    if hdr.manufacturer ≠ 10 then .error .unsupportedFile
    else if hdr.encoding ≠ 0 ∧ hdr.encoding ≠ 1 then .error .unsupportedFile
    else
      let width := pcxDim hdr.xMax hdr.xMin
      let height := pcxDim hdr.yMax hdr.yMin
      if width = 0 ∨ height = 0 then .error .fileCorrupted
      else if width > 32768 ∨ height > 32768 then .error .fileCorrupted
      else if hdr.bitsPerPixel = 0 ∨ hdr.nPlanes = 0 ∨ hdr.bytesPerLine = 0 then
        .error .fileCorrupted
      else if hdr.bytesPerLine * hdr.nPlanes > 2147483647 then .error .fileCorrupted
      else
        let bpp := hdr.bitsPerPixel
        let planes := hdr.nPlanes
        let isPlanar1bpp := bpp = 1 ∧ 1 ≤ planes ∧ planes ≤ 4
        let isPacked2bpp := bpp = 2 ∧ planes = 1
        let isPacked4bpp := bpp = 4 ∧ planes = 1
        let isIndexed8bpp := bpp = 8 ∧ planes = 1
        let isTrueColor24 := bpp = 8 ∧ planes = 3
        let isTrueColor32 := bpp = 8 ∧ planes = 4
        if ¬(isPlanar1bpp ∨ isPacked2bpp ∨ isPacked4bpp ∨ isIndexed8bpp ∨
             isTrueColor24 ∨ isTrueColor32) then
          .error .unsupportedFile
        else
          .ok { header := hdr, width := width, height := height,
                bytesPerScanLine := hdr.bytesPerLine * planes,
                isPlanar1bpp := decide isPlanar1bpp,
                isPacked2bpp := decide isPacked2bpp,
                isPacked4bpp := decide isPacked4bpp,
                isIndexed8bpp := decide isIndexed8bpp,
                isTrueColor24 := decide isTrueColor24,
                isTrueColor32 := decide isTrueColor32,
                forceDefaultEga :=
                  hdr.version == 0 || hdr.version == 3 ||
                    (List.range 48).all (fun i => hdr.colorMap.getD i 0 == 0) }

/-- The PCX RLE scanline loop: decode into `acc` until the scanline is full or
the source is exhausted; returns the bytes produced and the new position. -/
def pcxRleScan (fileData : Bytes) (bps : Nat) (acc : Bytes) (srcPos : Nat) :
    Bytes × Nat :=
  if h : acc.length < bps ∧ srcPos < fileData.length then
    let byte := fileData.getD srcPos 0
    if byte &&& 192 = 192 then
      let count0 := byte &&& 63
      let count := if count0 = 0 then 1 else count0
      if srcPos + 1 ≥ fileData.length then (acc, srcPos + 1)
      else
        let value := fileData.getD (srcPos + 1) 0
        let toWrite := min count (bps - acc.length)
        pcxRleScan fileData bps (acc ++ List.replicate toWrite value) (srcPos + 2)
    else
      pcxRleScan fileData bps (acc ++ [byte]) (srcPos + 1)
  else (acc, srcPos)
termination_by fileData.length - srcPos

/-- `PcxContext::DecodeScanLine`: one scanline (always `bps` bytes, zero
filled past what the source provides) and the updated source position. -/
def pcxDecodeScanLine (encoding : Nat) (fileData : Bytes) (bps srcPos : Nat) :
    Bytes × Nat :=
  if fileData.length = 0 then (List.replicate bps 0, srcPos)
  else if encoding = 0 then
    let remaining := if srcPos < fileData.length then fileData.length - srcPos else 0
    let toCopy := min remaining bps
    ((fileData.drop srcPos).take toCopy ++ List.replicate (bps - toCopy) 0,
     srcPos + toCopy)
  else
    let (out, pos) := pcxRleScan fileData bps [] srcPos
    (out ++ List.replicate (bps - out.length) 0, pos)

/-- `DecodeRowPlanar1bpp`'s palette index for column `x`: OR the matching bit
of each plane. -/
def pcxPlanarIndex (hdr : PcxHeader) (scanLine : Bytes) (x : Nat) : Nat :=
  (List.range hdr.nPlanes).foldl (fun acc p =>
    acc ||| (scanLine.getD (p * hdr.bytesPerLine + x / 8) 0 >>> (7 - x % 8) &&& 1) <<< p) 0

/-- One canonical pixel of a decoded PCX row for each mode; columns past the
per-mode `maxX` keep the buffer initialization (opaque black). -/
def pcxRowPixel (ctx : PcxContext) (scanLine : Bytes) (x : Nat) : Bytes :=
  if ctx.isIndexed8bpp then [0, 0, 0, 255]
  else if ctx.isTrueColor24 then
    if x < min ctx.width ctx.header.bytesPerLine then
      [scanLine.getD (ctx.header.bytesPerLine * 2 + x) 0,
       scanLine.getD (ctx.header.bytesPerLine + x) 0,
       scanLine.getD x 0, 255]
    else [0, 0, 0, 255]
  else if ctx.isTrueColor32 then
    if x < min ctx.width ctx.header.bytesPerLine then
      [scanLine.getD (ctx.header.bytesPerLine * 2 + x) 0,
       scanLine.getD (ctx.header.bytesPerLine + x) 0,
       scanLine.getD x 0,
       scanLine.getD (ctx.header.bytesPerLine * 3 + x) 0]
    else [0, 0, 0, 255]
  else if ctx.isPlanar1bpp then
    if x < min ctx.width (ctx.header.bytesPerLine * 8) then
      let idx := pcxPlanarIndex ctx.header scanLine x
      if ctx.header.paletteInfo = 2 ∧ ctx.header.nPlanes = 1 then
        let g := if idx &&& 1 ≠ 0 then 255 else 0
        [g, g, g, 255]
      else
        let (r, g, b) := getPal16 ctx.header ctx.forceDefaultEga idx
        [b, g, r, 255]
    else [0, 0, 0, 255]
  else if ctx.isPacked2bpp then
    if x < min ctx.width (ctx.header.bytesPerLine * 4) then
      let idx := scanLine.getD (x / 4) 0 >>> (6 - 2 * (x % 4)) &&& 3
      let (r, g, b) := getPal16 ctx.header ctx.forceDefaultEga idx
      [b, g, r, 255]
    else [0, 0, 0, 255]
  else if ctx.isPacked4bpp then
    if x < min ctx.width (ctx.header.bytesPerLine * 2) then
      let idx := if x % 2 = 1 then scanLine.getD (x / 2) 0 &&& 15
                 else scanLine.getD (x / 2) 0 >>> 4
      let (r, g, b) := getPal16 ctx.header ctx.forceDefaultEga idx
      [b, g, r, 255]
    else [0, 0, 0, 255]
  else [0, 0, 0, 255]

/-- Decode all scanlines, producing the list of raw scanlines and the final
source position (the image-end position used for trailer lookup). -/
def pcxScanLines (ctx : PcxContext) (fileData : Bytes) : List Bytes × Nat :=
  (List.range ctx.height).foldl (fun (acc, pos) _ =>
    let (scan, pos') := pcxDecodeScanLine ctx.header.encoding fileData
      ctx.bytesPerScanLine pos
    (acc ++ [scan], pos')) ([], 0)

/-- `FindVgaPalette`: offset of the 768 trailer-palette bytes inside the
post-header file data, or `none`. Looks first right after the image data,
then at 769 bytes before end-of-file. -/
def findVgaPalette (data : Bytes) (imageEndPos : Nat) : Option Nat :=
  if data.length < 769 then none
  else if imageEndPos + 769 ≤ data.length ∧ data.getD imageEndPos 0 = 12 then
    some (imageEndPos + 1)
  else if data.getD (data.length - 769) 0 = 12 then some (data.length - 768)
  else none

/-- One canonical pixel of `ApplyIndexedPalette`: the trailer palette when
present and the grayscale flag is clear, else the raw index as R=G=B. -/
def applyIndexedPixel (vgaPal : Option Bytes) (grayscale : Bool) (idx : Nat) :
    Bytes :=
  match vgaPal, grayscale with
  | some pal, false =>
    [pal.getD (idx * 3 + 2) 0, pal.getD (idx * 3 + 1) 0, pal.getD (idx * 3) 0, 255]
  | _, _ => [idx, idx, idx, 255]

/-- `ApplyIndexedPalette`: resolve the whole 8-bit index buffer to canonical
pixels. -/
def applyIndexedPalette (width height : Nat) (indexPixels : Bytes)
    (vgaPal : Option Bytes) (grayscale : Bool) : List Nat :=
  ((List.range height).map (fun y =>
    ((List.range width).map (fun x =>
      applyIndexedPixel vgaPal grayscale (indexPixels.getD (y * width + x) 0))).flatten)).flatten

/-- The decoded index buffer and canonical pixels of the PCX 8-bit path. -/
def pcxIndexPixels (ctx : PcxContext) (fileData : Bytes) : Bytes :=
  let maxX := min ctx.width ctx.header.bytesPerLine
  ((pcxScanLines ctx fileData).1.map (fun scan =>
    scan.take maxX ++ List.replicate (ctx.width - maxX) 0)).flatten

/-- The trailer palette actually used by the PCX 8-bit second pass. -/
def pcxVgaPal (ctx : PcxContext) (fileData : Bytes) : Option Bytes :=
  (findVgaPalette fileData (pcxScanLines ctx fileData).2).map
    (fun off => (fileData.drop off).take 768)

/-- `PCX_Read` over a memory-backed source. -/
def pcxRead (file : Bytes) : Except CKBitmapError VxImageDescEx :=
  match parsePcxHeader file with
  | .error e => .error e
  | .ok ctx =>
    let fileData := file.drop 128
    let dstStride := ctx.width * 4
    if dstStride * ctx.height > 2147483647 then .error .fileCorrupted
    else if ctx.isIndexed8bpp ∧ ctx.width * ctx.height > 2147483647 then
      .error .fileCorrupted
    else if ctx.isIndexed8bpp then
      .ok (fillFormatBGRA32 ctx.width ctx.height dstStride
        (applyIndexedPalette ctx.width ctx.height (pcxIndexPixels ctx fileData)
          (pcxVgaPal ctx fileData) (ctx.header.paletteInfo = 2)))
    else
      let dst := ((pcxScanLines ctx fileData).1.map (fun scan =>
        ((List.range ctx.width).map (pcxRowPixel ctx scan)).flatten)).flatten
      .ok (fillFormatBGRA32 ctx.width ctx.height dstStride dst)

theorem except_throw_bind {e : CKBitmapError} {a b : Type} (k : a → Except CKBitmapError b) :
    ((throw e : Except CKBitmapError a) >>= k) = throw e := rfl

theorem except_pure_bind {a b : Type} (v : a) (k : a → Except CKBitmapError b) :
    ((pure v : Except CKBitmapError a) >>= k) = k v := rfl

theorem except_throw_eq {a : Type} (e : CKBitmapError) :
    (throw e : Except CKBitmapError a) = Except.error e := rfl

theorem except_pure_eq {a : Type} (v : a) :
    (pure v : Except CKBitmapError a) = Except.ok v := rfl

theorem except_error_bind {e : CKBitmapError} {a b : Type} (k : a → Except CKBitmapError b) :
    ((Except.error e : Except CKBitmapError a) >>= k) = Except.error e := rfl

theorem except_ok_bind {a b : Type} (v : a) (k : a → Except CKBitmapError b) :
    ((Except.ok v : Except CKBitmapError a) >>= k) = k v := rfl

/-!  ### List helper lemmas  -/

theorem flatten_const_length {α : Type} {L : Nat} :
    ∀ (ls : List (List α)), (∀ r ∈ ls, r.length = L) →
      ls.flatten.length = ls.length * L := by
  intro ls
  induction ls with
  | nil => intro _; simp
  | cons r ls ih =>
    intro h
    simp only [List.flatten_cons, List.length_append, List.length_cons,
      h r (by simp), ih (fun r hr => h r (by simp [hr]))]
    ring

theorem flatten_const_drop_take {α : Type} {L : Nat} :
    ∀ (ls : List (List α)) (k : Nat), (∀ r ∈ ls, r.length = L) → k < ls.length →
      ((ls.flatten.drop (k * L)).take L = ls.getD k []) := by
  intro ls
  induction ls with
  | nil => intro k _ hk; simp at hk
  | cons r ls ih =>
    intro k h hk
    have hr : r.length = L := h r (by simp)
    match k with
    | 0 =>
      simp only [Nat.zero_mul, List.drop_zero, List.flatten_cons, List.getD_cons_zero]
      rw [show L = r.length + 0 by omega, List.take_append]
      simp
    | k + 1 =>
      simp only [List.flatten_cons, List.getD_cons_succ]
      rw [show (k + 1) * L = r.length + k * L by rw [hr]; ring, List.drop_append]
      exact ih k (fun r hr => h r (by simp [hr])) (by simpa using hk)

theorem rangeMap_getD {α : Type} (f : Nat → α) (n k : Nat) (hk : k < n) (d : α) :
    ((List.range n).map f).getD k d = f k := by
  rw [List.getD_eq_getElem _ _ (by simpa using hk)]
  simp

theorem rangeMap_mem_length {α : Type} {L : Nat} (f : Nat → List α) (n : Nat)
    (hf : ∀ i < n, (f i).length = L) :
    ∀ r ∈ (List.range n).map f, r.length = L := by
  intro r hr
  obtain ⟨i, hi, rfl⟩ := List.mem_map.mp hr
  exact hf i (List.mem_range.mp hi)

/-!  ### Claim theorems  -/

/-- C9. For every PCX input whose header yields width = xMax-xMin+1 or
height = yMax-yMin+1 equal to zero, or either dimension greater than 32768,
`PCX_Read` fails with FileCorrupted before allocating any destination pixel
buffer: the error is produced by the header-parsing stage, which in `PCX_Read`
precedes every buffer allocation, so no 0-byte or negative-size allocation is
ever attempted. -/
theorem pcx_dimension_rejection (file : Bytes) (hlen : 128 ≤ file.length)
    (hman : (pcxHeaderOfBytes file).manufacturer = 10)
    (henc : (pcxHeaderOfBytes file).encoding = 0 ∨ (pcxHeaderOfBytes file).encoding = 1)
    (hdim : pcxDim (pcxHeaderOfBytes file).xMax (pcxHeaderOfBytes file).xMin = 0 ∨
            pcxDim (pcxHeaderOfBytes file).yMax (pcxHeaderOfBytes file).yMin = 0 ∨
            32768 < pcxDim (pcxHeaderOfBytes file).xMax (pcxHeaderOfBytes file).xMin ∨
            32768 < pcxDim (pcxHeaderOfBytes file).yMax (pcxHeaderOfBytes file).yMin) :
    pcxRead file = Except.error CKBitmapError.fileCorrupted := by
  have hne : ¬((pcxHeaderOfBytes file).encoding ≠ 0 ∧ (pcxHeaderOfBytes file).encoding ≠ 1) := by
    rcases henc with h | h <;> simp [h]
  rcases hdim with h | h | h | h <;>
    simp [pcxRead, parsePcxHeader, hman, hne, h, Nat.not_lt.mpr hlen,
      except_throw_bind, except_pure_bind, except_throw_eq, except_pure_eq,
      except_error_bind, except_ok_bind]

/-- A concrete PCX file whose header yields width 0 (xMin = 1, xMax = 0). -/
def pcxZeroWidthFile : Bytes :=
  [10, 5, 0, 8, 1, 0, 0, 0, 0, 0, 0, 0, 0, 0, 0, 0] ++
  List.replicate 48 1 ++ [0, 1, 1, 0, 1, 0] ++ List.replicate 58 0 ++ [5]

set_option maxRecDepth 8000 in
theorem pcx_dimension_rejection_witness :
    pcxRead pcxZeroWidthFile = Except.error CKBitmapError.fileCorrupted :=
  pcx_dimension_rejection pcxZeroWidthFile (by decide) (by decide)
    (Or.inl (by decide)) (Or.inl (by decide))

theorem bmpSave_some_length (fmt : VxImageDescEx) (d : Nat) (out : Bytes)
    (h : bmpSave fmt d = some out) : 0 < out.length := by
  by_cases hwh : fmt.Width = 0 ∨ fmt.Height = 0
  · simp [bmpSave, hwh] at h
  · simp only [bmpSave, if_neg hwh] at h
    injection h with h
    rw [← h]
    simp [bmpFileHeader]

theorem tgaSave_some_length (fmt : VxImageDescEx) (d : Nat) (rle : Bool)
    (out : Bytes) (h : tgaSave fmt d rle = some out) : 0 < out.length := by
  by_cases hwh : fmt.Width = 0 ∨ fmt.Height = 0
  · simp [tgaSave, hwh] at h
  · simp only [tgaSave, if_neg hwh] at h
    injection h with h
    rw [← h]
    simp [tgaSaveHeader]

/-- C10. `BMP_Save` silently replaces any requested bit depth outside
{8, 9, 24, 32} (including the 16 advertised by the option enum) by 24, and
`TGA_Save` likewise replaces any depth outside {24, 32} by 24; for a nonempty
buffer neither reports an error (the result is a nonempty byte stream, i.e. a
positive returned size). -/
theorem save_unsupported_depth_fallback :
    (∀ (fmt : VxImageDescEx) (d : Nat), d ≠ 8 → d ≠ 9 → d ≠ 24 → d ≠ 32 →
      bmpSave fmt d = bmpSave fmt 24 ∧
      (fmt.Width ≠ 0 → fmt.Height ≠ 0 →
        ∃ out, bmpSave fmt d = some out ∧ 0 < out.length)) ∧
    (∀ (fmt : VxImageDescEx) (d : Nat) (rle : Bool), d ≠ 24 → d ≠ 32 →
      tgaSave fmt d rle = tgaSave fmt 24 rle ∧
      (fmt.Width ≠ 0 → fmt.Height ≠ 0 →
        ∃ out, tgaSave fmt d rle = some out ∧ 0 < out.length)) := by
  constructor
  · intro fmt d h8 h9 h24 h32
    constructor
    · simp [bmpSave, h8, h9, h24, h32]
    · intro hw hh
      rcases hres : bmpSave fmt d with _ | out
      · exact absurd hres (by simp [bmpSave, hw, hh])
      · exact ⟨out, rfl, bmpSave_some_length fmt d out hres⟩
  · intro fmt d rle h24 h32
    constructor
    · simp [tgaSave, h24, h32]
    · intro hw hh
      rcases hres : tgaSave fmt d rle with _ | out
      · exact absurd hres (by simp [tgaSave, hw, hh])
      · exact ⟨out, rfl, tgaSave_some_length fmt d rle out hres⟩

theorem save_unsupported_depth_fallback_witness :
    bmpSave (fillFormatBGRA32 1 1 4 [1, 2, 3, 255]) 16 =
      bmpSave (fillFormatBGRA32 1 1 4 [1, 2, 3, 255]) 24 ∧
    (∃ out, bmpSave (fillFormatBGRA32 1 1 4 [1, 2, 3, 255]) 16 = some out ∧
      0 < out.length) ∧
    tgaSave (fillFormatBGRA32 1 1 4 [1, 2, 3, 255]) 16 false =
      tgaSave (fillFormatBGRA32 1 1 4 [1, 2, 3, 255]) 24 false ∧
    (∃ out, tgaSave (fillFormatBGRA32 1 1 4 [1, 2, 3, 255]) 16 false = some out ∧
      0 < out.length) := by
  have hb := save_unsupported_depth_fallback.1 (fillFormatBGRA32 1 1 4 [1, 2, 3, 255])
    16 (by decide) (by decide) (by decide) (by decide)
  have ht := save_unsupported_depth_fallback.2 (fillFormatBGRA32 1 1 4 [1, 2, 3, 255])
    16 false (by decide) (by decide)
  exact ⟨hb.1, hb.2 (by decide) (by decide), ht.1, ht.2 (by decide) (by decide)⟩

/-- C5. Out-of-range palette indices never fail a decode and resolve
deterministically to palette entry 0: (1) `SetBGRAFromPalette` maps any index
`≥ entries` to entry 0's color; (2) an 8-bit BMP row sample `≥ entries`
decodes to exactly entry 0's four canonical bytes; (3) any BMP input (in
particular an 8-bit one) that passes the pre-decode stages decodes
successfully — the pixel-decoding stage cannot fail; (4) a PCX 8-bit sample is
always a byte < 256 and its palette lookup touches only the 768 declared
trailer-palette bytes, so an out-of-range index cannot arise there at all. -/
theorem palette_index_clamp :
    (∀ (pal : Bytes) (is3 : Bool) (entries idx : Nat), entries ≤ idx →
      setBGRAFromPalette pal is3 entries idx = setBGRAFromPalette pal is3 entries 0) ∧
    (∀ (src pal : Bytes) (is3 : Bool) (entries x width : Nat), x < width →
      entries ≤ src.getD x 0 →
      ((decodeRow8bpp src width pal is3 entries).drop (x * 4)).take 4 =
        setBGRAFromPalette pal is3 entries 0) ∧
    (∀ (file : Bytes) (di : BmpDecodeInput), bmpStages file = Except.ok di →
      di.hdr.bitCount = 8 →
      bmpRead file = Except.ok
        (fillFormatBGRA32 di.hdr.width di.hdr.height di.dstStride (bmpDecode di))) ∧
    (∀ (pal pal' : Bytes) (idx : Nat), idx < 256 →
      (∀ j < 768, pal.getD j 0 = pal'.getD j 0) →
      applyIndexedPixel (some pal) false idx = applyIndexedPixel (some pal') false idx) := by
  refine ⟨?_, ?_, ?_, ?_⟩
  · intro pal is3 entries idx h
    simp only [setBGRAFromPalette, ge_iff_le, if_pos h, ite_self]
  · intro src pal is3 entries x width hx hidx
    have hlen : ∀ r ∈ (List.range width).map
        (fun x => setBGRAFromPalette pal is3 entries (src.getD x 0)), r.length = 4 := by
      refine rangeMap_mem_length _ _ (fun i _ => ?_)
      simp [setBGRAFromPalette]
    rw [show x * 4 = x * 4 by rfl]
    unfold decodeRow8bpp
    rw [show (x * 4 : Nat) = x * 4 by rfl]
    rw [flatten_const_drop_take (L := 4) _ x hlen (by simpa using hx),
      rangeMap_getD _ _ _ hx]
    simp only [setBGRAFromPalette, ge_iff_le, if_pos hidx, ite_self]
  · intro file di hstage _
    simp [bmpRead, hstage, except_ok_bind, except_pure_eq]
  · intro pal pal' idx hidx hagree
    simp only [applyIndexedPixel]
    rw [hagree (idx * 3 + 2) (by omega), hagree (idx * 3 + 1) (by omega),
      hagree (idx * 3) (by omega)]

/-- A 2×1 8-bit BMP with 2 declared palette entries whose second sample is the
out-of-range index 200. -/
def bmpOobIndexFile : Bytes :=
  [0x42, 0x4D] ++ wr32 66 ++ [0, 0, 0, 0] ++ wr32 62 ++
  wr32 40 ++ wr32 2 ++ wr32 1 ++ wr16 1 ++ wr16 8 ++ wr32 0 ++ wr32 0 ++
  wr32 2835 ++ wr32 2835 ++ wr32 2 ++ wr32 0 ++
  [10, 20, 30, 0, 40, 50, 60, 0] ++ [1, 200, 0, 0]

/-- The stage output of `bmpOobIndexFile`. -/
def bmpOobIndexStages : BmpDecodeInput :=
  { hdr := { width := 2, height := 1, bitCount := 8, planes := 1,
             compression := 0, colorsUsed := 2, headerSize := 40,
             topDown := false, redMask := 0, greenMask := 0, blueMask := 0,
             alphaMask := 0, pixelDataOffset := 62 }
    palette := [10, 20, 30, 0, 40, 50, 60, 0]
    is3BytePalette := false
    paletteEntries := 2
    srcStride := 4
    pixelDataSize := 4
    srcPixels := [1, 200, 0, 0]
    dstStride := 8
    dstTotal := 8 }

set_option maxRecDepth 4000 in
theorem palette_index_clamp_witness :
    setBGRAFromPalette [10, 20, 30, 0, 40, 50, 60, 0] false 2 200 =
      setBGRAFromPalette [10, 20, 30, 0, 40, 50, 60, 0] false 2 0 ∧
    ((decodeRow8bpp [1, 200] 2 [10, 20, 30, 0, 40, 50, 60, 0] false 2).drop 4).take 4 =
      setBGRAFromPalette [10, 20, 30, 0, 40, 50, 60, 0] false 2 0 ∧
    bmpRead bmpOobIndexFile = Except.ok
      (fillFormatBGRA32 2 1 8 (bmpDecode bmpOobIndexStages)) ∧
    applyIndexedPixel (some ((List.replicate 768 7) ++ [9])) false 255 =
      applyIndexedPixel (some (List.replicate 768 7)) false 255 := by
  refine ⟨palette_index_clamp.1 _ false 2 200 (by decide),
    ?_,
    palette_index_clamp.2.2.1 bmpOobIndexFile bmpOobIndexStages (by decide) (by decide),
    palette_index_clamp.2.2.2 _ _ 255 (by decide) (fun j hj => ?_)⟩
  · have := palette_index_clamp.2.1 [1, 200] [10, 20, 30, 0, 40, 50, 60, 0]
      false 2 1 2 (by decide) (by decide)
    simpa using this
  · rw [List.getD_append _ _ _ _ (by simpa using hj)]

/-- C4. BMP RLE8 writes aimed outside `[0,width)×[0,height)` are dropped
silently: (1) `RLEContext::SetPixel` with the cursor out of bounds leaves the
destination (and the cursor) unchanged; (2) every RLE8 BMP input that passes
the pre-decode stages decodes successfully (return value 0) — the RLE decode
stage has no failure path, so no error is ever reported for such writes. -/
theorem bmp_rle8_oob_write_dropped :
    (∀ (c : RLEContext) (idx : Nat), c.height ≤ c.y ∨ c.width ≤ c.x →
      (rleSetPixel c idx).dst = c.dst ∧ (rleSetPixel c idx).x = c.x ∧
      (rleSetPixel c idx).y = c.y ∧ (rleSetPixel c idx).srcPos = c.srcPos) ∧
    (∀ (file : Bytes) (di : BmpDecodeInput), bmpStages file = Except.ok di →
      di.hdr.compression = 1 →
      bmpRead file = Except.ok
        (fillFormatBGRA32 di.hdr.width di.hdr.height di.dstStride (bmpDecode di))) := by
  constructor
  · intro c idx h
    have hc : ¬(c.y < c.height ∧ c.x < c.width) := by omega
    simp [rleSetPixel, hc]
  · intro file di hstage _
    simp [bmpRead, hstage, except_ok_bind, except_pure_eq]

/-- A 2×2 bottom-up RLE8 BMP whose stream starts with a delta `(200,0)`
moving the cursor to column 200, far outside the 2-pixel-wide image; the
following run's writes are dropped. -/
def bmpRle8OobFile : Bytes :=
  [0x42, 0x4D] ++ wr32 0 ++ [0, 0, 0, 0] ++ wr32 62 ++
  wr32 40 ++ wr32 2 ++ wr32 2 ++ wr16 1 ++ wr16 8 ++ wr32 1 ++ wr32 0 ++
  wr32 2835 ++ wr32 2835 ++ wr32 2 ++ wr32 0 ++
  [10, 20, 30, 0, 40, 50, 60, 0] ++ [0, 2, 200, 0, 2, 1, 0, 0, 0, 0, 0, 1]

/-- The stage output of `bmpRle8OobFile`. -/
def bmpRle8OobStages : BmpDecodeInput :=
  { hdr := { width := 2, height := 2, bitCount := 8, planes := 1,
             compression := 1, colorsUsed := 2, headerSize := 40,
             topDown := false, redMask := 0, greenMask := 0, blueMask := 0,
             alphaMask := 0, pixelDataOffset := 62 }
    palette := [10, 20, 30, 0, 40, 50, 60, 0]
    is3BytePalette := false
    paletteEntries := 2
    srcStride := 4
    pixelDataSize := 12
    srcPixels := [0, 2, 200, 0, 2, 1, 0, 0, 0, 0, 0, 1]
    dstStride := 8
    dstTotal := 16 }

set_option maxRecDepth 4000 in
theorem bmp_rle8_oob_write_dropped_witness :
    ((rleSetPixel
      { src := []
        srcSize := 0
        srcPos := 0
        dst := [1, 2, 3, 4]
        dstStride := 8
        width := 2
        height := 2
        topDown := false
        palette := []
        is3BytePalette := false
        paletteEntries := 0
        x := 200
        y := 0 } 1).dst = [1, 2, 3, 4]) ∧
    bmpRead bmpRle8OobFile = Except.ok
      (fillFormatBGRA32 2 2 8 (bmpDecode bmpRle8OobStages)) :=
  ⟨(bmp_rle8_oob_write_dropped.1 _ 1 (Or.inr (by decide))).1,
   bmp_rle8_oob_write_dropped.2 bmpRle8OobFile bmpRle8OobStages (by decide) (by decide)⟩

theorem except_bind_ok_inv {a b : Type} (m : Except CKBitmapError a)
    (k : a → Except CKBitmapError b) (v : b) (h : (m >>= k) = Except.ok v) :
    ∃ u, m = Except.ok u ∧ k u = Except.ok v := by
  cases m with
  | error e => rw [except_error_bind] at h; cases h
  | ok u => exact ⟨u, rfl, h⟩

set_option maxHeartbeats 1000000 in
theorem bmpStages_ok_shape (file : Bytes) (di : BmpDecodeInput)
    (h : bmpStages file = Except.ok di) :
    di.dstStride = ckd (di.hdr.width * 4) ∧
    di.dstTotal = di.dstStride * di.hdr.height ∧ di.dstTotal ≤ 4294967295 := by
  unfold bmpStages at h
  dsimp only at h
  repeat' split at h
  all_goals (try cases h)
  all_goals (refine ⟨rfl, rfl, ?_⟩; dsimp only; omega)

/-- C6. Every successful decode by any of the three codecs fills the
canonical descriptor via `FillFormatBGRA32`: BitsPerPixel 32, the four fixed
channel masks (which place B in byte 0, G in byte 1, R in byte 2 and A in
byte 3 of each little-endian 32-bit pixel, i.e. B,G,R,A byte order), and
BytesPerLine = width*4.  For BMP the stride is computed in CKDWORD
arithmetic, so the equality is stated under `width*4 < 2^32`; wider images
cannot complete a decode without undefined behaviour in the C code. -/
theorem canonical_format_invariant :
    (∀ (file : Bytes) (fmt : VxImageDescEx), bmpRead file = Except.ok fmt →
      fmt.BitsPerPixel = 32 ∧ fmt.RedMask = 0x00FF0000 ∧
      fmt.GreenMask = 0x0000FF00 ∧ fmt.BlueMask = 0x000000FF ∧
      fmt.AlphaMask = 0xFF000000 ∧
      (fmt.Width * 4 < 4294967296 → fmt.BytesPerLine = fmt.Width * 4)) ∧
    (∀ (file : Bytes) (fmt : VxImageDescEx), tgaRead file = Except.ok fmt →
      fmt.BitsPerPixel = 32 ∧ fmt.RedMask = 0x00FF0000 ∧
      fmt.GreenMask = 0x0000FF00 ∧ fmt.BlueMask = 0x000000FF ∧
      fmt.AlphaMask = 0xFF000000 ∧ fmt.BytesPerLine = fmt.Width * 4) ∧
    (∀ (file : Bytes) (fmt : VxImageDescEx), pcxRead file = Except.ok fmt →
      fmt.BitsPerPixel = 32 ∧ fmt.RedMask = 0x00FF0000 ∧
      fmt.GreenMask = 0x0000FF00 ∧ fmt.BlueMask = 0x000000FF ∧
      fmt.AlphaMask = 0xFF000000 ∧ fmt.BytesPerLine = fmt.Width * 4) := by
  refine ⟨?_, ?_, ?_⟩
  · intro file fmt h
    unfold bmpRead at h
    split at h
    · cases h
    · next di heq =>
      cases h
      obtain ⟨hs, _, _⟩ := bmpStages_ok_shape file di heq
      refine ⟨rfl, rfl, rfl, rfl, rfl, fun hw => ?_⟩
      simp only [fillFormatBGRA32] at hw ⊢
      rw [hs, ckd, Nat.mod_eq_of_lt hw]
  · intro file fmt h
    unfold tgaRead at h
    dsimp only at h
    repeat' split at h
    all_goals (first
      | exact Except.noConfusion h
      | (injection h with h2; subst h2; exact ⟨rfl, rfl, rfl, rfl, rfl, rfl⟩))
  · intro file fmt h
    unfold pcxRead at h
    dsimp only at h
    repeat' split at h
    all_goals (first
      | exact Except.noConfusion h
      | (injection h with h2; subst h2; exact ⟨rfl, rfl, rfl, rfl, rfl, rfl⟩))

/-- A 1×1 24-bit BMP. -/
def bmpTinyFile : Bytes :=
  [0x42, 0x4D] ++ wr32 58 ++ [0, 0, 0, 0] ++ wr32 54 ++
  wr32 40 ++ wr32 1 ++ wr32 1 ++ wr16 1 ++ wr16 24 ++ wr32 0 ++ wr32 0 ++
  wr32 2835 ++ wr32 2835 ++ wr32 0 ++ wr32 0 ++ [1, 2, 3, 0]

/-- A 1×1 uncompressed 24-bit TGA. -/
def tgaTinyFile : Bytes :=
  [0, 0, 2, 0, 0, 0, 0, 0, 0, 0, 0, 0, 1, 0, 1, 0, 24, 0] ++ [4, 5, 6]

/-- A 1×1 8-bit PCX with no trailer palette. -/
def pcxTinyFile : Bytes :=
  [10, 5, 0, 8, 0, 0, 0, 0, 0, 0, 0, 0, 0, 0, 0, 0] ++
  List.replicate 48 1 ++ [0, 1, 1, 0, 1, 0] ++ List.replicate 58 0 ++ [5]

set_option maxRecDepth 8000 in
theorem canonical_format_invariant_witness :
    ((bmpRead bmpTinyFile).map (fun fmt => (fmt.BitsPerPixel, fmt.BytesPerLine)) =
       Except.ok (32, 4)) ∧
    ((tgaRead tgaTinyFile).map (fun fmt => (fmt.BitsPerPixel, fmt.BytesPerLine)) =
       Except.ok (32, 4)) ∧
    ((pcxRead pcxTinyFile).map (fun fmt => (fmt.BitsPerPixel, fmt.BytesPerLine)) =
       Except.ok (32, 4)) := by
  have hb : bmpRead bmpTinyFile =
      Except.ok (fillFormatBGRA32 1 1 4 [1, 2, 3, 255]) := by decide
  have ht : tgaRead tgaTinyFile =
      Except.ok (fillFormatBGRA32 1 1 4 [4, 5, 6, 255]) := by decide
  have hp : pcxRead pcxTinyFile =
      Except.ok (fillFormatBGRA32 1 1 4 [5, 5, 5, 255]) := by decide
  obtain ⟨h1, _, _, _, _, h6⟩ := canonical_format_invariant.1 bmpTinyFile _ hb
  obtain ⟨t1, _, _, _, _, t6⟩ := canonical_format_invariant.2.1 tgaTinyFile _ ht
  obtain ⟨p1, _, _, _, _, p6⟩ := canonical_format_invariant.2.2 pcxTinyFile _ hp
  refine ⟨?_, ?_, ?_⟩
  · rw [hb]; simp only [Except.map]
    rw [show (fillFormatBGRA32 1 1 4 [1, 2, 3, 255]).BitsPerPixel = 32 from h1,
      show (fillFormatBGRA32 1 1 4 [1, 2, 3, 255]).BytesPerLine = _ from h6 (by decide)]
    rfl
  · rw [ht]; simp only [Except.map]
    rw [show (fillFormatBGRA32 1 1 4 [4, 5, 6, 255]).BitsPerPixel = 32 from t1,
      show (fillFormatBGRA32 1 1 4 [4, 5, 6, 255]).BytesPerLine = _ from t6]
    rfl
  · rw [hp]; simp only [Except.map]
    rw [show (fillFormatBGRA32 1 1 4 [5, 5, 5, 255]).BitsPerPixel = 32 from p1,
      show (fillFormatBGRA32 1 1 4 [5, 5, 5, 255]).BytesPerLine = _ from p6]
    rfl

theorem tgaRunWrite_pixelCount_le (ctx : TgaContext) (dstStride total : Nat)
    (pixel : Bytes) (n : Nat) (st : TgaRleState) (h : st.pixelCount ≤ total) :
    (tgaRunWrite ctx dstStride total pixel n st).pixelCount ≤ total := by
  induction n generalizing st with
  | zero => exact h
  | succ n ih =>
    unfold tgaRunWrite
    split
    · next hlt => exact ih _ (by simpa using hlt)
    · exact h

theorem tgaRawWrite_pixelCount_le (ctx : TgaContext) (dstStride total : Nat)
    (srcPixels : Bytes) (size bpp n : Nat) (st : TgaRleState)
    (h : st.pixelCount ≤ total) :
    (tgaRawWrite ctx dstStride total srcPixels size bpp n st).pixelCount ≤ total := by
  induction n generalizing st with
  | zero => exact h
  | succ n ih =>
    unfold tgaRawWrite
    split
    · next hlt =>
      split
      · exact h
      · exact ih _ (by simpa using hlt)
    · exact h

theorem tgaRleLoop_pixelCount_le_aux (ctx : TgaContext) (srcPixels : Bytes)
    (size bpp total dstStride : Nat) :
    ∀ f st, size - st.srcPos ≤ f → st.pixelCount ≤ total →
      (tgaRleLoop ctx srcPixels size bpp total dstStride st).pixelCount ≤ total := by
  intro f
  induction f with
  | zero =>
    intro st hf hc
    unfold tgaRleLoop
    rw [dif_neg (by omega)]
    exact hc
  | succ n ih =>
    intro st hf hc
    unfold tgaRleLoop
    split
    · next hmore =>
      obtain ⟨hc1, hpos⟩ := hmore
      dsimp only
      split
      · split
        · exact hc
        · refine ih _ ?_ ?_
          · have hrun := tgaRunWrite_srcPos ctx dstStride total
              (decodePixel ctx.header ctx.pixelDepth ctx.hasColorMap ctx.isGrayscale
                ctx.alphaBits ctx.colorMap ctx.colorMapEntries ctx.colorMapBytesPerEntry
                (srcPixels.drop (st.srcPos + 1)))
              ((srcPixels.getD st.srcPos 0 &&& 127) + 1)
              { st with srcPos := st.srcPos + 1 + bpp }
            simp only [hrun]
            omega
          · exact tgaRunWrite_pixelCount_le _ _ _ _ _ _ (by simpa using hc)
      · refine ih _ ?_ ?_
        · have hraw := tgaRawWrite_srcPos_le ctx dstStride total srcPixels size bpp
            ((srcPixels.getD st.srcPos 0 &&& 127) + 1) { st with srcPos := st.srcPos + 1 }
          simp only at hraw
          omega
        · exact tgaRawWrite_pixelCount_le _ _ _ _ _ _ _ _ (by simpa using hc)
    · exact hc

theorem tgaRleLoop_pixelCount_le (ctx : TgaContext) (srcPixels : Bytes)
    (size bpp total dstStride : Nat) (st : TgaRleState)
    (hc : st.pixelCount ≤ total) :
    (tgaRleLoop ctx srcPixels size bpp total dstStride st).pixelCount ≤ total :=
  tgaRleLoop_pixelCount_le_aux ctx srcPixels size bpp total dstStride
    (size - st.srcPos) st (Nat.le_refl _) hc

/-- C2 (amended). For an RLE TGA that parses successfully: the decode loop
never produces more than `width*height` pixels (run and raw packets are
clipped at the total pixel budget, and the loop stops as soon as the budget is
met, leaving excess packets unread); `TGA_Read` returns FileCorrupted exactly
when the stream is exhausted before `width*height` pixels are decoded, i.e.
only the *fewer*-pixels case is rejected, and a stream whose packets account
for more pixels than `width*height` decodes successfully. -/
theorem tga_rle_pixel_budget (file : Bytes) (ctx : TgaContext) (pos : Nat)
    (hparse : parseTgaHeader file = Except.ok (ctx, pos))
    (hrle : ctx.isRLE = true)
    (hfit : ctx.width * 4 * ctx.height ≤ 4294967295) :
    (tgaRleResult file ctx pos).pixelCount ≤ ctx.width * ctx.height ∧
    (tgaRead file = Except.error CKBitmapError.fileCorrupted ↔
      (tgaRleResult file ctx pos).pixelCount < ctx.width * ctx.height) ∧
    ((tgaRleResult file ctx pos).pixelCount = ctx.width * ctx.height →
      tgaRead file = Except.ok (fillFormatBGRA32 ctx.width ctx.height
        (ctx.width * 4) (tgaRleResult file ctx pos).dst)) := by
  have hle : (tgaRleResult file ctx pos).pixelCount ≤ ctx.width * ctx.height :=
    tgaRleLoop_pixelCount_le _ _ _ _ _ _ _ (Nat.zero_le _)
  have hread : tgaRead file =
      (if (tgaRleResult file ctx pos).pixelCount ≠ ctx.width * ctx.height then
        Except.error CKBitmapError.fileCorrupted
      else Except.ok (fillFormatBGRA32 ctx.width ctx.height (ctx.width * 4)
        (tgaRleResult file ctx pos).dst)) := by
    unfold tgaRead
    rw [hparse]
    dsimp only
    rw [if_neg (by omega), if_pos hrle]
  refine ⟨hle, ?_, ?_⟩
  · by_cases hq : (tgaRleResult file ctx pos).pixelCount = ctx.width * ctx.height
    · rw [hread, if_neg (by simpa using hq)]
      constructor
      · intro hcontra; cases hcontra
      · intro hlt; omega
    · rw [hread, if_pos hq]
      exact ⟨fun _ => by omega, fun _ => rfl⟩
  · intro hq
    rw [hread, if_neg (by simpa using hq)]

/-- A 1×1 RLE true-color TGA whose single run packet accounts for 2 pixels
(one more than `width*height`). -/
def tgaOverlongRleFile : Bytes :=
  [0, 0, 10, 0, 0, 0, 0, 0, 0, 0, 0, 0, 1, 0, 1, 0, 24, 0] ++ [129, 1, 2, 3]

/-- The parsed context of `tgaOverlongRleFile`. -/
def tgaOverlongCtx : TgaContext :=
  { header := tgaHeaderOfBytes tgaOverlongRleFile
    width := 1
    height := 1
    pixelDepth := 24
    srcBytesPerPixel := 3
    alphaBits := 0
    interleaveMode := 0
    isRLE := true
    hasColorMap := false
    isGrayscale := false
    isRightToLeft := false
    isTopDown := false
    colorMap := []
    colorMapEntries := 0
    colorMapBytesPerEntry := 0 }

/-- C2 counterexample: the claim says an RLE stream whose packets decode to
*more* pixels than `width*height` must return FileCorrupted; on
`tgaOverlongRleFile` (a 1×1 image whose run packet spans 2 pixels) `TGA_Read`
instead clips the run at the pixel budget and returns success. -/
theorem tga_rle_overrun_accepted :
    tgaRead tgaOverlongRleFile = Except.ok (fillFormatBGRA32 1 1 4 [1, 2, 3, 255]) := by
  have hparse : parseTgaHeader tgaOverlongRleFile = Except.ok (tgaOverlongCtx, 18) := by
    decide
  have hloop : tgaRleResult tgaOverlongRleFile tgaOverlongCtx 18 =
      { srcPos := 4, pixelCount := 1, dst := [1, 2, 3, 255] } := by
    simp +decide [tgaRleResult, tgaRleLoop, tgaRunWrite, tgaRawWrite,
      tgaWritePixel, decodePixel, decode15or16, mapX, mapY, deinterleaveY,
      writeBytes, tgaOverlongRleFile, tgaOverlongCtx, tgaHeaderOfBytes, rd16]
  unfold tgaRead
  rw [hparse]
  dsimp only
  rw [if_neg (by decide)]
  rw [show tgaOverlongCtx.isRLE = true from rfl]
  simp only [if_pos, if_true]
  rw [hloop]
  norm_num [tgaOverlongCtx]

/-- A 2×1 RLE true-color TGA whose single run packet accounts for only 1 of
the 2 pixels. -/
def tgaShortRleFile : Bytes :=
  [0, 0, 10, 0, 0, 0, 0, 0, 0, 0, 0, 0, 2, 0, 1, 0, 24, 0] ++ [128, 1, 2, 3]

/-- The parsed context of `tgaShortRleFile`. -/
def tgaShortCtx : TgaContext :=
  { header := tgaHeaderOfBytes tgaShortRleFile
    width := 2
    height := 1
    pixelDepth := 24
    srcBytesPerPixel := 3
    alphaBits := 0
    interleaveMode := 0
    isRLE := true
    hasColorMap := false
    isGrayscale := false
    isRightToLeft := false
    isTopDown := false
    colorMap := []
    colorMapEntries := 0
    colorMapBytesPerEntry := 0 }

theorem tga_rle_pixel_budget_witness :
    tgaRead tgaShortRleFile = Except.error CKBitmapError.fileCorrupted ∧
    (tgaRleResult tgaShortRleFile tgaShortCtx 18).pixelCount ≤ 2 := by
  have hparse : parseTgaHeader tgaShortRleFile = Except.ok (tgaShortCtx, 18) := by
    decide
  have h := tga_rle_pixel_budget tgaShortRleFile tgaShortCtx 18 hparse rfl (by decide)
  have hcnt : (tgaRleResult tgaShortRleFile tgaShortCtx 18).pixelCount = 1 := by
    simp +decide [tgaRleResult, tgaRleLoop, tgaRunWrite, tgaRawWrite,
      tgaWritePixel, decodePixel, decode15or16, mapX, mapY, deinterleaveY,
      writeBytes, tgaShortRleFile, tgaShortCtx, tgaHeaderOfBytes, rd16]
  refine ⟨h.2.1.mpr ?_, ?_⟩
  · rw [hcnt]
    norm_num [tgaShortCtx]
  · exact le_trans h.1 (by norm_num [tgaShortCtx])

/-- C3 (amended). For every 8-bit indexed PCX decode the final pixels are
`ApplyIndexedPalette` over the decoded index buffer, where the trailer lookup
(`FindVgaPalette`) is performed independently of the grayscale flag, but the
*application* gives the grayscale flag precedence: the trailer palette is
applied only when `paletteInfo ≠ 2`; in every other case — grayscale flag set
(even with a trailer present), or no trailer found — the index value is used
directly as R=G=B (never black). -/
theorem pcx_indexed_palette_resolution (file : Bytes) (ctx : PcxContext)
    (hparse : parsePcxHeader file = Except.ok ctx)
    (h8 : ctx.isIndexed8bpp = true)
    (hfit1 : ctx.width * 4 * ctx.height ≤ 2147483647)
    (hfit2 : ctx.width * ctx.height ≤ 2147483647) :
    pcxRead file = Except.ok (fillFormatBGRA32 ctx.width ctx.height (ctx.width * 4)
      (applyIndexedPalette ctx.width ctx.height (pcxIndexPixels ctx (file.drop 128))
        (pcxVgaPal ctx (file.drop 128)) (ctx.header.paletteInfo = 2))) ∧
    (∀ (pal : Bytes) (idx : Nat), applyIndexedPixel (some pal) true idx =
      [idx, idx, idx, 255]) ∧
    (∀ (gray : Bool) (idx : Nat), applyIndexedPixel none gray idx =
      [idx, idx, idx, 255]) ∧
    (∀ (pal : Bytes) (idx : Nat), applyIndexedPixel (some pal) false idx =
      [pal.getD (idx * 3 + 2) 0, pal.getD (idx * 3 + 1) 0,
       pal.getD (idx * 3) 0, 255]) := by
  refine ⟨?_, fun pal idx => rfl, fun gray idx => by cases gray <;> rfl,
    fun pal idx => rfl⟩
  unfold pcxRead
  rw [hparse]
  dsimp only
  rw [if_neg (by omega), if_neg (by simp [h8]; omega), if_pos h8]

/-- A 1×1 8-bit PCX with `paletteInfo = 2` (grayscale flag), pixel index 5,
and a 0x0C-marked VGA trailer whose entry 5 is (30,20,10). -/
def pcxGrayTrailerFile : Bytes :=
  [10, 5, 0, 8, 0, 0, 0, 0, 0, 0, 0, 0, 0, 0, 0, 0] ++
  List.replicate 48 1 ++ [0, 1, 1, 0, 2, 0] ++ List.replicate 58 0 ++
  [5] ++ [12] ++
  ((List.range 256).map (fun i => if i = 5 then [30, 20, 10] else [0, 0, 0])).flatten

/-- A 1×1 8-bit PCX with `paletteInfo = 1` (color), pixel index 5, and no
trailer palette at all. -/
def pcxNoTrailerColorFile : Bytes :=
  [10, 5, 0, 8, 0, 0, 0, 0, 0, 0, 0, 0, 0, 0, 0, 0] ++
  List.replicate 48 1 ++ [0, 1, 1, 0, 1, 0] ++ List.replicate 58 0 ++ [5]

/-- The parsed context of `pcxGrayTrailerFile`. -/
def pcxGrayTrailerCtx : PcxContext :=
  { header := pcxHeaderOfBytes pcxGrayTrailerFile
    width := 1
    height := 1
    bytesPerScanLine := 1
    isPlanar1bpp := false
    isPacked2bpp := false
    isPacked4bpp := false
    isIndexed8bpp := true
    isTrueColor24 := false
    isTrueColor32 := false
    forceDefaultEga := false }

set_option maxRecDepth 20000 in
/-- C3 counterexample: the claim says a found trailer palette is applied
regardless of `paletteInfo = 2`, and that with no trailer and
`paletteInfo ≠ 2` pixels remain black.  On `pcxGrayTrailerFile` the trailer
IS found (`pcxVgaPal` is `some`, its entry 5 being (30,20,10)), yet the
decoded pixel is the raw index as gray, (5,5,5,255), not the palette color
(B,G,R = 10,20,30); and on the trailer-less variant with `paletteInfo = 1`
the pixel is likewise (5,5,5,255), not black. -/
theorem pcx_gray_trailer_counterexample :
    (pcxVgaPal pcxGrayTrailerCtx (pcxGrayTrailerFile.drop 128)).isSome = true ∧
    ((pcxVgaPal pcxGrayTrailerCtx (pcxGrayTrailerFile.drop 128)).getD []).getD
      (5 * 3) 0 = 30 ∧
    pcxRead pcxGrayTrailerFile =
      Except.ok (fillFormatBGRA32 1 1 4 [5, 5, 5, 255]) ∧
    pcxRead pcxNoTrailerColorFile =
      Except.ok (fillFormatBGRA32 1 1 4 [5, 5, 5, 255]) := by
  refine ⟨by decide, by decide, by decide, by decide⟩

/-- A 1×1 8-bit PCX with `paletteInfo = 1` (color), pixel index 5, and a
0x0C-marked VGA trailer whose entry 5 is (30,20,10). -/
def pcxColorTrailerFile : Bytes :=
  [10, 5, 0, 8, 0, 0, 0, 0, 0, 0, 0, 0, 0, 0, 0, 0] ++
  List.replicate 48 1 ++ [0, 1, 1, 0, 1, 0] ++ List.replicate 58 0 ++
  [5] ++ [12] ++
  ((List.range 256).map (fun i => if i = 5 then [30, 20, 10] else [0, 0, 0])).flatten

/-- The parsed context of `pcxColorTrailerFile`. -/
def pcxColorTrailerCtx : PcxContext :=
  { header := pcxHeaderOfBytes pcxColorTrailerFile
    width := 1
    height := 1
    bytesPerScanLine := 1
    isPlanar1bpp := false
    isPacked2bpp := false
    isPacked4bpp := false
    isIndexed8bpp := true
    isTrueColor24 := false
    isTrueColor32 := false
    forceDefaultEga := false }

set_option maxRecDepth 20000 in
theorem pcx_indexed_palette_resolution_witness :
    pcxRead pcxColorTrailerFile = Except.ok (fillFormatBGRA32 1 1 4
      (applyIndexedPalette 1 1
        (pcxIndexPixels pcxColorTrailerCtx (pcxColorTrailerFile.drop 128))
        (pcxVgaPal pcxColorTrailerCtx (pcxColorTrailerFile.drop 128))
        (pcxColorTrailerCtx.header.paletteInfo = 2))) ∧
    applyIndexedPixel (some [1, 2, 3]) true 7 = [7, 7, 7, 255] ∧
    applyIndexedPixel none false 7 = [7, 7, 7, 255] ∧
    applyIndexedPixel (some [1, 2, 3]) false 0 = [3, 2, 1, 255] := by
  have h := pcx_indexed_palette_resolution pcxColorTrailerFile pcxColorTrailerCtx
    (by decide) (by decide) (by decide) (by decide)
  exact ⟨h.1, h.2.1 [1, 2, 3] 7, h.2.2.1 false 7, h.2.2.2 [1, 2, 3] 0⟩

/-- A 2×2 top-down (height field = -2) RLE8 BMP whose stream is a delta
`(0,2)(1,1)` followed by a one-pixel run of palette entry 1, then end-of-line
and end-of-bitmap. -/
def bmpTopDownDeltaFile : Bytes :=
  [0x42, 0x4D] ++ wr32 0 ++ [0, 0, 0, 0] ++ wr32 62 ++
  wr32 40 ++ wr32 2 ++ wr32 4294967294 ++ wr16 1 ++ wr16 8 ++ wr32 1 ++ wr32 0 ++
  wr32 2835 ++ wr32 2835 ++ wr32 2 ++ wr32 0 ++
  [10, 20, 30, 0, 40, 50, 60, 0] ++ [0, 2, 1, 1, 1, 1, 0, 0, 0, 0, 0, 1]

/-- The stage output of `bmpTopDownDeltaFile`. -/
def bmpTopDownDeltaStages : BmpDecodeInput :=
  { hdr := { width := 2, height := 2, bitCount := 8, planes := 1,
             compression := 1, colorsUsed := 2, headerSize := 40,
             topDown := true, redMask := 0, greenMask := 0, blueMask := 0,
             alphaMask := 0, pixelDataOffset := 62 }
    palette := [10, 20, 30, 0, 40, 50, 60, 0]
    is3BytePalette := false
    paletteEntries := 2
    srcStride := 4
    pixelDataSize := 12
    srcPixels := [0, 2, 1, 1, 1, 1, 0, 0, 0, 0, 0, 1]
    dstStride := 8
    dstTotal := 16 }

/-- C7 counterexample: in a top-down RLE8 BMP the delta escape moves the
cursor toward the source's BOTTOM, not its top. Decoding
`bmpTopDownDeltaFile` starts the cursor at the top-left pixel (0,0); the
delta `(dx,dy) = (1,1)` lands it at (1,1) and the following run paints
canonical row 1 — the bottom row (byte offset 12 of the 2×2 BGRA buffer) —
one row BELOW the start, whereas the claim's "dy toward the source's top
regardless of storage orientation" would forbid any write below row 0. -/
theorem bmp_rle_delta_topdown_counterexample :
    bmpRead bmpTopDownDeltaFile =
      Except.ok (fillFormatBGRA32 2 2 8
        (List.replicate 12 255 ++ [40, 50, 60, 255])) := by
  have hstage : bmpStages bmpTopDownDeltaFile = Except.ok bmpTopDownDeltaStages := by
    decide
  have hdec : bmpDecode bmpTopDownDeltaStages =
      List.replicate 12 255 ++ [40, 50, 60, 255] := by
    simp +decide [bmpDecode, decodeRLE8, rleAdvance, rleByteAt, rleHasMore,
      rleNextLine, rleDelta, rleRun, rleSetPixel, rlePad, rleAbs, writeBytes,
      setBGRAFromPalette, ckd, ckdSub, bmpTopDownDeltaStages]
  simp only [bmpRead, hstage, hdec]
  rfl

/-- C7 (amended). The BMP RLE delta escape `(0,2)` followed by `(dx,dy)`
advances the cursor `dx` columns to the right (mod 2^32) and `dy` rows in
STORAGE order — `y + dy` for top-down bitmaps (toward the source's bottom),
`y - dy` with CKDWORD wraparound for bottom-up bitmaps (toward the source's
top); the direction of `dy` therefore depends on the storage orientation.
`DecodeRLE8` dispatches the escape to exactly this move after consuming the
four stream bytes. -/
theorem bmp_rle_delta_storage_order :
    (∀ (c : RLEContext) (dx dy : Nat),
      (rleDelta c dx dy).x = ckd (c.x + dx) ∧
      (c.topDown = true → (rleDelta c dx dy).y = ckd (c.y + dy)) ∧
      (c.topDown = false → (rleDelta c dx dy).y = ckdSub c.y dy)) ∧
    (∀ (c : RLEContext) (dx dy : Nat),
      rleHasMore c →
      c.srcPos + 4 ≤ c.srcSize →
      c.src.getD c.srcPos 0 = 0 →
      c.src.getD (c.srcPos + 1) 0 = 2 →
      c.src.getD (c.srcPos + 2) 0 = dx →
      c.src.getD (c.srcPos + 3) 0 = dy →
      decodeRLE8 c =
        decodeRLE8 (rleDelta { c with srcPos := c.srcPos + 4 } dx dy)) := by
  constructor
  · intro c dx dy
    refine ⟨rfl, fun h => ?_, fun h => ?_⟩ <;> simp [rleDelta, h]
  · intro c dx dy hm hsz h0 h1 h2 h3
    obtain ⟨hp, hy⟩ := hm
    have e0 : rleByteAt c = 0 := by rw [rleByteAt, if_pos hp]; exact h0
    have a1 : rleAdvance c = { c with srcPos := c.srcPos + 1 } := by
      rw [rleAdvance, if_pos hp]
    have e1 : rleByteAt { c with srcPos := c.srcPos + 1 } = 2 := by
      rw [rleByteAt, if_pos (show c.srcPos + 1 < c.srcSize by omega)]; exact h1
    have a2 : rleAdvance { c with srcPos := c.srcPos + 1 } =
        { c with srcPos := c.srcPos + 2 } := by
      rw [rleAdvance, if_pos (show c.srcPos + 1 < c.srcSize by omega)]
    have e2 : rleByteAt { c with srcPos := c.srcPos + 2 } = dx := by
      rw [rleByteAt, if_pos (show c.srcPos + 2 < c.srcSize by omega)]; exact h2
    have a3 : rleAdvance { c with srcPos := c.srcPos + 2 } =
        { c with srcPos := c.srcPos + 3 } := by
      rw [rleAdvance, if_pos (show c.srcPos + 2 < c.srcSize by omega)]
    have e3 : rleByteAt { c with srcPos := c.srcPos + 3 } = dy := by
      rw [rleByteAt, if_pos (show c.srcPos + 3 < c.srcSize by omega)]; exact h3
    have a4 : rleAdvance { c with srcPos := c.srcPos + 3 } =
        { c with srcPos := c.srcPos + 4 } := by
      rw [rleAdvance, if_pos (show c.srcPos + 3 < c.srcSize by omega)]
    conv_lhs => rw [decodeRLE8]
    rw [dif_pos ⟨hp, hy⟩]
    simp only [a1, a2, a3, a4, e0, e1, e2, e3]
    simp

/-- A bottom-up context whose stream opens with the delta escape
`(0,2)(3,1)`, used to instantiate `bmp_rle_delta_storage_order`. -/
def bmpDeltaWitnessCtx : RLEContext :=
  { src := [0, 2, 3, 1, 0, 1]
    srcSize := 6
    srcPos := 0
    dst := []
    dstStride := 0
    width := 0
    height := 1
    topDown := false
    palette := []
    is3BytePalette := false
    paletteEntries := 0
    x := 0
    y := 0 }

theorem bmp_rle_delta_storage_order_witness :
    (rleDelta bmpDeltaWitnessCtx 3 1).x = ckd (bmpDeltaWitnessCtx.x + 3) ∧
    (rleDelta bmpDeltaWitnessCtx 3 1).y = ckdSub bmpDeltaWitnessCtx.y 1 ∧
    decodeRLE8 bmpDeltaWitnessCtx =
      decodeRLE8 (rleDelta { bmpDeltaWitnessCtx with
        srcPos := bmpDeltaWitnessCtx.srcPos + 4 } 3 1) :=
  ⟨(bmp_rle_delta_storage_order.1 bmpDeltaWitnessCtx 3 1).1,
   (bmp_rle_delta_storage_order.1 bmpDeltaWitnessCtx 3 1).2.2 rfl,
   bmp_rle_delta_storage_order.2 bmpDeltaWitnessCtx 3 1 (by decide) (by decide)
     (by decide) (by decide) (by decide) (by decide)⟩

/-- The RLE8 payload assembled by `BMP_Save` when saving with bitDepth 9:
every grayscale row is encoded by `RLE8::EncodeRow` and terminated by the
end-of-line escape `(0,0)`; the stream ends with the end-of-bitmap escape
`(0,1)`. -/
def bmpRleData (fmt : VxImageDescEx) : Bytes :=
  ((List.range fmt.Height).map (fun y =>
    encodeRowFrom (grayRow fmt.Image fmt.BytesPerLine fmt.Width fmt.Height y)
      fmt.Width 0 ++ [0, 0])).flatten
  ++ [0, 1]

/-- C8. The BMP RLE8 encoder's grammar: (1) when the run scan at the current
position finds a run of length ≥ 2, a run-length token `(runLen, v)` is
emitted and the cursor advances by `runLen`; (2) two identical consecutive
bytes at the position guarantee such a run; (3) otherwise, a literal sequence
of length ≥ 3 is emitted as one absolute token `(0, litLen, bytes, pad)`
padded to an even byte count when `litLen` is odd; (4) a literal sequence of
length < 3 is emitted as length-1 run tokens `(1, byte)`; (5) `BMP_Save` at
bitDepth 9 emits each row's encoding terminated by the end-of-line escape
`(0,0)` and terminates the whole stream with the end-of-bitmap escape
`(0,1)`. -/
theorem bmp_rle8_encoder_grammar :
    (∀ (row : Bytes) (width x : Nat), x < width →
      2 ≤ scanRun row width x (row.getD x 0) 1 →
      encodeRowFrom row width x =
        (scanRun row width x (row.getD x 0) 1) % 256 :: row.getD x 0 ::
          encodeRowFrom row width (x + scanRun row width x (row.getD x 0) 1)) ∧
    (∀ (row : Bytes) (width x : Nat), x + 1 < width →
      row.getD (x + 1) 0 = row.getD x 0 →
      2 ≤ scanRun row width x (row.getD x 0) 1) ∧
    (∀ (row : Bytes) (width x : Nat), x < width →
      scanRun row width x (row.getD x 0) 1 < 2 →
      3 ≤ scanLit row width x 1 →
      encodeRowFrom row width x =
        (0 :: (scanLit row width x 1) % 256 ::
          ((row.drop x).take (scanLit row width x 1) ++
            (if (scanLit row width x 1) % 2 = 1 then [0] else []))) ++
          encodeRowFrom row width (x + scanLit row width x 1)) ∧
    (∀ (row : Bytes) (width x : Nat), x < width →
      scanRun row width x (row.getD x 0) 1 < 2 →
      scanLit row width x 1 < 3 →
      encodeRowFrom row width x =
        ((List.range (scanLit row width x 1)).map
          (fun i => [1, row.getD (x + i) 0])).flatten ++
          encodeRowFrom row width (x + scanLit row width x 1)) ∧
    (∀ fmt : VxImageDescEx, ¬(fmt.Width = 0 ∨ fmt.Height = 0) →
      bmpSave fmt 9 =
        some (bmpFileHeader (ckd (1078 + ckd (bmpRleData fmt).length)) 1078 ++
              bmpInfoHeader fmt.Width fmt.Height 8 1 (ckd (bmpRleData fmt).length) 256 ++
              bmpGrayPalette ++ bmpRleData fmt)) := by
  refine ⟨?_, ?_, ?_, ?_, ?_⟩
  · intro row width x hx hrun
    conv_lhs => rw [encodeRowFrom]
    rw [dif_pos hx]
    dsimp only
    rw [if_pos hrun]
  · intro row width x hx1 heq
    rw [scanRun]
    rw [if_pos ⟨hx1, by omega, heq⟩]
    exact scanRun_le row width x _ 2
  · intro row width x hx hrun hlit
    conv_lhs => rw [encodeRowFrom]
    rw [dif_pos hx]
    dsimp only
    rw [if_neg (show ¬ scanRun row width x (row.getD x 0) 1 ≥ 2 by omega)]
    rw [if_pos hlit]
  · intro row width x hx hrun hlit
    conv_lhs => rw [encodeRowFrom]
    rw [dif_pos hx]
    dsimp only
    rw [if_neg (show ¬ scanRun row width x (row.getD x 0) 1 ≥ 2 by omega)]
    rw [if_neg (show ¬ scanLit row width x 1 ≥ 3 by omega)]
  · intro fmt hwh
    rw [bmpSave]
    rw [if_neg hwh]
    simp only [bmpRleData]
    norm_num

theorem bmp_rle8_encoder_grammar_witness :
    encodeRowFrom [7, 7, 7, 5] 4 0 =
      3 % 256 :: 7 :: encodeRowFrom [7, 7, 7, 5] 4 3 ∧
    2 ≤ scanRun [7, 7, 7, 5] 4 0 7 1 ∧
    encodeRowFrom [1, 2, 3, 4] 4 0 =
      (0 :: 4 % 256 :: ([1, 2, 3, 4] ++ [])) ++ encodeRowFrom [1, 2, 3, 4] 4 4 ∧
    encodeRowFrom [1, 2, 7, 7] 4 0 =
      [1, 1, 1, 2] ++ encodeRowFrom [1, 2, 7, 7] 4 2 ∧
    bmpSave { Width := 1, Height := 1, BytesPerLine := 4, BitsPerPixel := 32,
              RedMask := 16711680, GreenMask := 65280, BlueMask := 255,
              AlphaMask := 4278190080, Image := [10, 20, 30, 255] } 9 =
      some (bmpFileHeader (ckd (1078 + ckd (bmpRleData
              { Width := 1, Height := 1, BytesPerLine := 4, BitsPerPixel := 32,
                RedMask := 16711680, GreenMask := 65280, BlueMask := 255,
                AlphaMask := 4278190080, Image := [10, 20, 30, 255] }).length)) 1078 ++
            bmpInfoHeader 1 1 8 1 (ckd (bmpRleData
              { Width := 1, Height := 1, BytesPerLine := 4, BitsPerPixel := 32,
                RedMask := 16711680, GreenMask := 65280, BlueMask := 255,
                AlphaMask := 4278190080, Image := [10, 20, 30, 255] }).length) 256 ++
            bmpGrayPalette ++ bmpRleData
              { Width := 1, Height := 1, BytesPerLine := 4, BitsPerPixel := 32,
                RedMask := 16711680, GreenMask := 65280, BlueMask := 255,
                AlphaMask := 4278190080, Image := [10, 20, 30, 255] }) := by
  have hr : scanRun [7, 7, 7, 5] 4 0 7 1 = 3 := by
    simp +decide [scanRun]
  have hl1 : scanLit [1, 2, 3, 4] 4 0 1 = 4 := by
    simp +decide [scanLit]
  have hl2 : scanLit [1, 2, 7, 7] 4 0 1 = 2 := by
    simp +decide [scanLit]
  refine ⟨?_, ?_, ?_, ?_, ?_⟩
  · have h := bmp_rle8_encoder_grammar.1 [7, 7, 7, 5] 4 0 (by decide)
      (by rw [show ([7, 7, 7, 5] : Bytes).getD 0 0 = 7 from rfl, hr]; omega)
    rw [show ([7, 7, 7, 5] : Bytes).getD 0 0 = 7 from rfl, hr] at h
    exact h
  · exact bmp_rle8_encoder_grammar.2.1 [7, 7, 7, 5] 4 0 (by decide) (by decide)
  · have h := bmp_rle8_encoder_grammar.2.2.1 [1, 2, 3, 4] 4 0 (by decide)
      (by rw [show ([1, 2, 3, 4] : Bytes).getD 0 0 = 1 from rfl]
          simp +decide [scanRun])
      (by rw [hl1]; omega)
    rw [hl1] at h
    simpa using h
  · have h := bmp_rle8_encoder_grammar.2.2.2.1 [1, 2, 7, 7] 4 0 (by decide)
      (by rw [show ([1, 2, 7, 7] : Bytes).getD 0 0 = 1 from rfl]
          simp +decide [scanRun])
      (by rw [hl2]; omega)
    rw [hl2] at h
    simpa using h
  · exact bmp_rle8_encoder_grammar.2.2.2.2
      { Width := 1, Height := 1, BytesPerLine := 4, BitsPerPixel := 32,
        RedMask := 16711680, GreenMask := 65280, BlueMask := 255,
        AlphaMask := 4278190080, Image := [10, 20, 30, 255] } (by decide)

/-- `getD` through `drop`. -/
theorem getD_drop (l : Bytes) (n i d : Nat) :
    (l.drop n).getD i d = l.getD (n + i) d := by
  simp [List.getD_eq_getElem?_getD, List.getElem?_drop]

/-- `getD` through `take` for in-range indices. -/
theorem getD_take (l : Bytes) (n i d : Nat) (h : i < n) :
    (l.take n).getD i d = l.getD i d := by
  simp [List.getD_eq_getElem?_getD, List.getElem?_take, h]

/-- Element access in a flatten of constant-length rows. -/
theorem flatten_const_getD {L : Nat} (ls : List Bytes)
    (hall : ∀ r ∈ ls, r.length = L) (k r d : Nat) (hk : k < ls.length)
    (hr : r < L) :
    ls.flatten.getD (k * L + r) d = (ls.getD k []).getD r d := by
  rw [← flatten_const_drop_take ls k hall hk]
  rw [getD_take _ _ _ _ hr, getD_drop]

/-- Reading back a serialized 16-bit word. -/
theorem rd16_wr16_prefix (v : Nat) (rest : Bytes) :
    rd16 (wr16 v ++ rest) 0 = v % 65536 := by
  simp [rd16, wr16]
  omega

/-- Reading back a serialized 32-bit word. -/
theorem rd32_wr32_prefix (v : Nat) (rest : Bytes) :
    rd32 (wr32 v ++ rest) 0 = v % 4294967296 := by
  simp [rd32, rd16, wr32]
  omega

/-- A 16-bit read at `k` is a read at 0 after dropping `k` bytes. -/
theorem rd16_eq_drop (l : Bytes) (k : Nat) : rd16 l k = rd16 (l.drop k) 0 := by
  simp [rd16, getD_drop]

/-- A 32-bit read at `k` is a read at 0 after dropping `k` bytes. -/
theorem rd32_eq_drop (l : Bytes) (k : Nat) : rd32 l k = rd32 (l.drop k) 0 := by
  simp [rd32, rd16, getD_drop]

/-- The BMP file produced by `BMP_Save` at bitDepth 24 for a canonical
`w`×`h` buffer: 14-byte file header, 40-byte info header, no palette, and
bottom-up rows of stride `(w*24+31)/32*4`. -/
def bmp24SavedFile (w h : Nat) (buf : Bytes) : Bytes :=
  bmpFileHeader (54 + (w * 24 + 31) / 32 * 4 * h) 54 ++
  bmpInfoHeader w h 24 0 ((w * 24 + 31) / 32 * 4 * h) 0 ++
  ((List.range h).map
    (bmpSaveRow buf (w * 4) w h 24 ((w * 24 + 31) / 32 * 4))).flatten

theorem bmp24Save_eq (w h : Nat) (buf : Bytes) (hw : 0 < w) (hh : 0 < h)
    (hS : w * 24 + 31 < 4294967296)
    (hF : 54 + (w * 24 + 31) / 32 * 4 * h < 4294967296) :
    bmpSave { Width := w, Height := h, BytesPerLine := w * 4,
              BitsPerPixel := 32, RedMask := 16711680, GreenMask := 65280,
              BlueMask := 255, AlphaMask := 4278190080, Image := buf } 24 =
      some (bmp24SavedFile w h buf) := by
  have hne : ¬(w = 0 ∨ h = 0) := by omega
  have c1 : ckd (w * 24) = w * 24 := Nat.mod_eq_of_lt (by omega)
  have c2 : ckd ((w * 24 + 31) / 32 * 4) = (w * 24 + 31) / 32 * 4 :=
    Nat.mod_eq_of_lt (by omega)
  have c3 : ckd ((w * 24 + 31) / 32 * 4 * h) = (w * 24 + 31) / 32 * 4 * h :=
    Nat.mod_eq_of_lt (by omega)
  have c4 : ckd (54 + (w * 24 + 31) / 32 * 4 * h) =
      54 + (w * 24 + 31) / 32 * 4 * h :=
    Nat.mod_eq_of_lt (by omega)
  rw [bmpSave]
  dsimp only
  rw [if_neg hne]
  norm_num
  rw [c1, c2, c3, c4]
  rw [bmp24SavedFile]
  simp

theorem bmpSaveRow24_length (buf : Bytes) (sst w h S y : Nat) (h3 : 3 * w ≤ S) :
    (bmpSaveRow buf sst w h 24 S y).length = S := by
  unfold bmpSaveRow
  rw [if_neg (by norm_num), if_pos rfl]
  rw [List.length_append, List.length_replicate]
  have hall : ∀ r ∈ (List.range w).map (fun x =>
      [buf.getD ((h - 1 - y) * sst + x * 4) 0,
       buf.getD ((h - 1 - y) * sst + x * 4 + 1) 0,
       buf.getD ((h - 1 - y) * sst + x * 4 + 2) 0]), r.length = 3 :=
    rangeMap_mem_length _ _ (fun i _ => rfl)
  rw [flatten_const_length _ hall]
  rw [List.length_map, List.length_range]
  omega

theorem bmp24Pix_length (w h : Nat) (buf : Bytes) (hw : 0 < w) :
    (((List.range h).map
      (bmpSaveRow buf (w * 4) w h 24 ((w * 24 + 31) / 32 * 4))).flatten).length =
      h * ((w * 24 + 31) / 32 * 4) := by
  rw [flatten_const_length (L := (w * 24 + 31) / 32 * 4) _
    (rangeMap_mem_length _ _ (fun i _ =>
      bmpSaveRow24_length buf (w * 4) w h _ i (by omega)))]
  simp

theorem bmp24File_length (w h : Nat) (buf : Bytes) (hw : 0 < w) :
    (bmp24SavedFile w h buf).length = 54 + (w * 24 + 31) / 32 * 4 * h := by
  rw [bmp24SavedFile]
  simp [bmpFileHeader, bmpInfoHeader, wr32, wr16, bmp24Pix_length w h buf hw]
  ring

/-- The parsed header of a `BMP_Save`-at-24 file. -/
def bmp24Hdr (w h : Nat) : BmpHeader :=
  { width := w, height := h, bitCount := 24, planes := 1,
    compression := 0, colorsUsed := 0, headerSize := 40,
    topDown := false, redMask := 0, greenMask := 0, blueMask := 0,
    alphaMask := 0, pixelDataOffset := 54 }

/-- The decode-stage input that `BMP_Read` assembles for a file written by
`BMP_Save` at bitDepth 24. -/
def bmp24DecodeInput (w h : Nat) (buf : Bytes) : BmpDecodeInput :=
  { hdr := bmp24Hdr w h
    palette := []
    is3BytePalette := false
    paletteEntries := 0
    srcStride := (w * 24 + 31) / 32 * 4
    pixelDataSize := (w * 24 + 31) / 32 * 4 * h
    srcPixels := ((List.range h).map
      (bmpSaveRow buf (w * 4) w h 24 ((w * 24 + 31) / 32 * 4))).flatten
    dstStride := w * 4
    dstTotal := w * 4 * h }

set_option maxHeartbeats 2000000 in
theorem bmp24Stages (w h : Nat) (buf : Bytes) (hw : 0 < w) (hh : 0 < h)
    (hS : w * 24 + 31 < 4294967296)
    (hF : 54 + (w * 24 + 31) / 32 * 4 * h < 4294967296)
    (hD : w * 4 * h < 4294967296) :
    bmpStages (bmp24SavedFile w h buf) = Except.ok (bmp24DecodeInput w h buf) := by
  have hlen := bmp24File_length w h buf hw
  have h4S : 4 ≤ (w * 24 + 31) / 32 * 4 := by omega
  have hhS : 4 * h ≤ (w * 24 + 31) / 32 * 4 * h := Nat.mul_le_mul_right h h4S
  have hh31 : h < 2147483648 := by omega
  have hw32 : w < 4294967296 := by omega
  have s0 : rd16 (bmp24SavedFile w h buf) 0 = 19778 := rfl
  have d10 : (bmp24SavedFile w h buf).drop 10 =
      wr32 54 ++ (bmp24SavedFile w h buf).drop 14 := rfl
  have d14 : (bmp24SavedFile w h buf).drop 14 =
      wr32 40 ++ (bmp24SavedFile w h buf).drop 18 := rfl
  have d18 : (bmp24SavedFile w h buf).drop 18 =
      wr32 w ++ (bmp24SavedFile w h buf).drop 22 := rfl
  have d22 : (bmp24SavedFile w h buf).drop 22 =
      wr32 h ++ (bmp24SavedFile w h buf).drop 26 := rfl
  have d26 : (bmp24SavedFile w h buf).drop 26 =
      wr16 1 ++ (bmp24SavedFile w h buf).drop 28 := rfl
  have d28 : (bmp24SavedFile w h buf).drop 28 =
      wr16 24 ++ (bmp24SavedFile w h buf).drop 30 := rfl
  have d30 : (bmp24SavedFile w h buf).drop 30 =
      wr32 0 ++ (bmp24SavedFile w h buf).drop 34 := rfl
  have d46 : (bmp24SavedFile w h buf).drop 46 =
      wr32 0 ++ (bmp24SavedFile w h buf).drop 50 := rfl
  have r10 : rd32 (bmp24SavedFile w h buf) 10 = 54 := by
    rw [rd32_eq_drop, d10, rd32_wr32_prefix]
  have r14 : rd32 (bmp24SavedFile w h buf) 14 = 40 := by
    rw [rd32_eq_drop, d14, rd32_wr32_prefix]
  have r18 : rd32 (bmp24SavedFile w h buf) 18 = w := by
    rw [rd32_eq_drop, d18, rd32_wr32_prefix]; omega
  have r22 : rd32 (bmp24SavedFile w h buf) 22 = h := by
    rw [rd32_eq_drop, d22, rd32_wr32_prefix]; omega
  have r26 : rd16 (bmp24SavedFile w h buf) 26 = 1 := by
    rw [rd16_eq_drop, d26, rd16_wr16_prefix]
  have r28 : rd16 (bmp24SavedFile w h buf) 28 = 24 := by
    rw [rd16_eq_drop, d28, rd16_wr16_prefix]
  have r30 : rd32 (bmp24SavedFile w h buf) 30 = 0 := by
    rw [rd32_eq_drop, d30, rd32_wr32_prefix]
  have r46 : rd32 (bmp24SavedFile w h buf) 46 = 0 := by
    rw [rd32_eq_drop, d46, rd32_wr32_prefix]
  have hnl54 : ¬((bmp24SavedFile w h buf).length < 54) := by omega
  have hnl14 : ¬((bmp24SavedFile w h buf).length < 14) := by omega
  have hnl18 : ¬((bmp24SavedFile w h buf).length < 18) := by omega
  have hdecTD : decide (h ≥ 2147483648) = false := decide_eq_false (by omega)
  have hhge : ¬(h ≥ 2147483648) := by omega
  have hlb54 : ¬(54 + (w * 24 + 31) / 32 * 4 * h < 54) := by omega
  have hne0 : ¬(w = 0 ∨ h = 0) := by omega
  have hbr : parseBmpHeaderBranch (bmp24SavedFile w h buf) =
      Except.ok (bmp24Hdr w h, 54) := by
    rw [parseBmpHeaderBranch]
    dsimp only
    rw [r10, r14, r22, r30, r18, r46, r26, r28, hlen, hdecTD]
    norm_num [bmp24Hdr, hhge, hlb54]
  have hph : parseBmpHeader (bmp24SavedFile w h buf) =
      Except.ok (bmp24Hdr w h, 54) := by
    rw [parseBmpHeader]
    rw [if_neg hnl14, if_neg (by rw [s0]; norm_num), if_neg hnl18, hbr]
    norm_num [bmp24Hdr, hne0]
  have d54 : (bmp24SavedFile w h buf).drop 54 =
      ((List.range h).map
        (bmpSaveRow buf (w * 4) w h 24 ((w * 24 + 31) / 32 * 4))).flatten := rfl
  have cD : ckd (w * 4) = w * 4 := Nat.mod_eq_of_lt (by omega)
  have htake : (((bmp24SavedFile w h buf).drop 54).take
      ((w * 24 + 31) / 32 * 4 * h)) =
      ((List.range h).map
        (bmpSaveRow buf (w * 4) w h 24 ((w * 24 + 31) / 32 * 4))).flatten := by
    rw [d54]
    refine List.take_of_length_le ?_
    rw [bmp24Pix_length w h buf hw]
    exact Nat.le_of_eq (Nat.mul_comm h ((w * 24 + 31) / 32 * 4))
  rw [bmpStages, hph]
  dsimp only
  rw [show bmpPaletteSizing (bmp24Hdr w h) = Except.ok (0, 0) from rfl]
  dsimp only
  norm_num
  rw [show bmpResolveMasks (bmp24Hdr w h) [] 0 = bmp24Hdr w h from rfl]
  simp only [bmp24Hdr]
  rw [if_neg (by norm_num)]
  rw [if_pos (show 54 ≤ (bmp24SavedFile w h buf).length by rw [hlen]; omega)]
  rw [if_neg (show ¬((w * 24 + 31) / 32 * 4 > 4294967295) by omega)]
  rw [if_neg (fun hc =>
    absurd hc.2 (show ¬((w * 24 + 31) / 32 * 4 * h > 4294967295) by omega))]
  simp only [true_or, if_true]
  rw [if_pos (show 54 + (w * 24 + 31) / 32 * 4 * h ≤ (bmp24SavedFile w h buf).length
    by rw [hlen])]
  rw [htake, cD]
  rw [if_neg (show ¬(4294967295 < w * 4 * h) by omega)]
  rfl

theorem decodeRow24bpp_length (src : Bytes) (w : Nat) :
    (decodeRow24bpp src w).length = w * 4 := by
  unfold decodeRow24bpp
  have hall : ∀ r ∈ (List.range w).map (fun x =>
      [src.getD (x * 3) 0, src.getD (x * 3 + 1) 0, src.getD (x * 3 + 2) 0, 255]),
      r.length = 4 := rangeMap_mem_length _ _ (fun i _ => rfl)
  rw [flatten_const_length _ hall]
  simp

theorem decodeRow24bpp_getD (src : Bytes) (w x c : Nat) (hx : x < w) (hc : c < 4) :
    (decodeRow24bpp src w).getD (x * 4 + c) 0 =
      if c = 3 then 255 else src.getD (x * 3 + c) 0 := by
  rw [decodeRow24bpp]
  have hall : ∀ r ∈ (List.range w).map (fun x =>
      [src.getD (x * 3) 0, src.getD (x * 3 + 1) 0, src.getD (x * 3 + 2) 0, 255]),
      r.length = 4 := rangeMap_mem_length _ _ (fun i _ => rfl)
  rw [flatten_const_getD _ hall x c 0 (by simpa using hx) hc]
  rw [rangeMap_getD _ _ _ hx]
  interval_cases c <;> rfl

theorem bmpSaveRow24_getD (buf : Bytes) (sst w h S y c x : Nat) (hx : x < w)
    (hc : c < 3) (h3 : 3 * w ≤ S) :
    (bmpSaveRow buf sst w h 24 S y).getD (x * 3 + c) 0 =
      buf.getD ((h - 1 - y) * sst + x * 4 + c) 0 := by
  rw [show bmpSaveRow buf sst w h 24 S y = ((List.range w).map (fun x =>
      [buf.getD ((h - 1 - y) * sst + x * 4) 0,
       buf.getD ((h - 1 - y) * sst + x * 4 + 1) 0,
       buf.getD ((h - 1 - y) * sst + x * 4 + 2) 0])).flatten ++
      List.replicate (S - 3 * w) 0 from rfl]
  have hall : ∀ r ∈ (List.range w).map (fun x =>
      [buf.getD ((h - 1 - y) * sst + x * 4) 0,
       buf.getD ((h - 1 - y) * sst + x * 4 + 1) 0,
       buf.getD ((h - 1 - y) * sst + x * 4 + 2) 0]), r.length = 3 :=
    rangeMap_mem_length _ _ (fun i _ => rfl)
  have hfl : (((List.range w).map (fun x =>
      [buf.getD ((h - 1 - y) * sst + x * 4) 0,
       buf.getD ((h - 1 - y) * sst + x * 4 + 1) 0,
       buf.getD ((h - 1 - y) * sst + x * 4 + 2) 0])).flatten).length = w * 3 := by
    rw [flatten_const_length _ hall]
    simp
  rw [List.getD_append _ _ _ _ (by rw [hfl]; omega)]
  rw [flatten_const_getD _ hall x c 0 (by simpa using hx) hc]
  rw [rangeMap_getD _ _ _ hx]
  interval_cases c <;> rfl

theorem bmp24Pix_getD (w h : Nat) (buf : Bytes) (hw : 0 < w) (y i : Nat)
    (hy : y < h) (hi : i < (w * 24 + 31) / 32 * 4) :
    (((List.range h).map
      (bmpSaveRow buf (w * 4) w h 24 ((w * 24 + 31) / 32 * 4))).flatten).getD
        (y * ((w * 24 + 31) / 32 * 4) + i) 0 =
      (bmpSaveRow buf (w * 4) w h 24 ((w * 24 + 31) / 32 * 4) y).getD i 0 := by
  have hall : ∀ r ∈ (List.range h).map
      (bmpSaveRow buf (w * 4) w h 24 ((w * 24 + 31) / 32 * 4)),
      r.length = (w * 24 + 31) / 32 * 4 :=
    rangeMap_mem_length _ _ (fun j _ =>
      bmpSaveRow24_length buf (w * 4) w h _ j (by omega))
  rw [flatten_const_getD _ hall y i 0 (by simpa using hy) hi]
  rw [rangeMap_getD _ _ _ hy]

theorem ext_getD (l1 l2 : Bytes) (hlen : l1.length = l2.length)
    (h : ∀ j, j < l1.length → l1.getD j 0 = l2.getD j 0) : l1 = l2 := by
  apply List.ext_getElem hlen
  intro n h1 h2
  have hn := h n h1
  rwa [List.getD_eq_getElem _ 0 h1, List.getD_eq_getElem _ 0 h2] at hn

theorem bmp24Decode_eq (w h : Nat) (buf : Bytes) (hw : 0 < w) (hh : 0 < h)
    (hlen : buf.length = w * 4 * h)
    (halpha : ∀ i, i < w * h → buf.getD (i * 4 + 3) 0 = 255) :
    bmpDecode (bmp24DecodeInput w h buf) = buf := by
  rw [show bmpDecode (bmp24DecodeInput w h buf) =
      ((List.range h).map (fun y =>
        decodeRow24bpp
          ((((List.range h).map
            (bmpSaveRow buf (w * 4) w h 24 ((w * 24 + 31) / 32 * 4))).flatten).drop
              ((h - 1 - y) * ((w * 24 + 31) / 32 * 4))) w)).flatten from rfl]
  have hrows : ∀ r ∈ (List.range h).map (fun y =>
      decodeRow24bpp
        ((((List.range h).map
          (bmpSaveRow buf (w * 4) w h 24 ((w * 24 + 31) / 32 * 4))).flatten).drop
            ((h - 1 - y) * ((w * 24 + 31) / 32 * 4))) w), r.length = w * 4 :=
    rangeMap_mem_length _ _ (fun i _ => decodeRow24bpp_length _ _)
  apply ext_getD
  · rw [flatten_const_length _ hrows, hlen]
    simp
    ring
  · intro j hj
    rw [flatten_const_length _ hrows] at hj
    simp only [List.length_map, List.length_range] at hj
    have hw4 : 0 < w * 4 := by omega
    have hy : j / (w * 4) < h := (Nat.div_lt_iff_lt_mul hw4).mpr hj
    have hrl : j % (w * 4) < w * 4 := Nat.mod_lt _ hw4
    have hx : j % (w * 4) / 4 < w := (Nat.div_lt_iff_lt_mul (by norm_num)).mpr hrl
    have hcl : j % (w * 4) % 4 < 4 := Nat.mod_lt _ (by norm_num)
    have e1 : j / (w * 4) * (w * 4) + j % (w * 4) = j := by
      rw [Nat.mul_comm]
      exact Nat.div_add_mod j (w * 4)
    have e2 : j % (w * 4) / 4 * 4 + j % (w * 4) % 4 = j % (w * 4) := by
      rw [Nat.mul_comm]
      exact Nat.div_add_mod (j % (w * 4)) 4
    obtain ⟨y, x, c, rfl, hyh, hxw, hc4⟩ :
        ∃ y x c, j = y * (w * 4) + (x * 4 + c) ∧ y < h ∧ x < w ∧ c < 4 :=
      ⟨j / (w * 4), j % (w * 4) / 4, j % (w * 4) % 4, by omega, hy, hx, hcl⟩
    rw [flatten_const_getD _ hrows y (x * 4 + c) 0 (by simpa using hyh) (by omega)]
    rw [rangeMap_getD _ _ _ hyh]
    rw [decodeRow24bpp_getD _ _ _ _ hxw hc4]
    by_cases hc3 : c = 3
    · subst hc3
      rw [if_pos rfl]
      have hyw : y * w + x < w * h := by
        calc y * w + x < y * w + w := by omega
          _ = (y + 1) * w := by ring
          _ ≤ h * w := Nat.mul_le_mul_right w (by omega)
          _ = w * h := Nat.mul_comm h w
      have ha := halpha _ hyw
      rw [show y * (w * 4) + (x * 4 + 3) = (y * w + x) * 4 + 3 from by ring]
      exact ha.symm
    · rw [if_neg hc3]
      rw [getD_drop]
      have hcc : c < 3 := by omega
      have hyy : h - 1 - y < h := by omega
      have hii : x * 3 + c < (w * 24 + 31) / 32 * 4 := by omega
      have h3w : 3 * w ≤ (w * 24 + 31) / 32 * 4 := by omega
      rw [bmp24Pix_getD w h buf hw (h - 1 - y) (x * 3 + c) hyy hii]
      rw [bmpSaveRow24_getD buf (w * 4) w h ((w * 24 + 31) / 32 * 4)
        (h - 1 - y) c x hxw hcc h3w]
      rw [show h - 1 - (h - 1 - y) = y from by omega]
      rw [show y * (w * 4) + (x * 4 + c) = y * (w * 4) + x * 4 + c from by ring]

/-- C1. 24-bit BMP round trip. (1) Every pixel produced by the 24-bit BMP row
decoder has alpha byte 255 (24-bit BMP carries no alpha; it is forced opaque).
(2) For every canonical w×h buffer whose alpha bytes are all 255 — the shape
of any 24-bit decode output — calling `BMP_Save` at bitDepth 24 produces the
file `bmp24SavedFile w h buf`, and `BMP_Read` of that file succeeds with a
canonical buffer byte-identical to the original. The size hypotheses keep the
stride, destination and file-size CKDWORD arithmetic below 2^32 (larger
images overflow the 32-bit size computations in the C code). -/
theorem bmp24_roundtrip :
    (∀ (src : Bytes) (w i : Nat), i < w →
      (decodeRow24bpp src w).getD (i * 4 + 3) 0 = 255) ∧
    (∀ (w h : Nat) (buf : Bytes),
      0 < w → 0 < h →
      buf.length = w * 4 * h →
      (∀ i, i < w * h → buf.getD (i * 4 + 3) 0 = 255) →
      w * 24 + 31 < 4294967296 →
      54 + (w * 24 + 31) / 32 * 4 * h < 4294967296 →
      w * 4 * h < 4294967296 →
      bmpSave { Width := w, Height := h, BytesPerLine := w * 4,
                BitsPerPixel := 32, RedMask := 16711680, GreenMask := 65280,
                BlueMask := 255, AlphaMask := 4278190080, Image := buf } 24 =
        some (bmp24SavedFile w h buf) ∧
      bmpRead (bmp24SavedFile w h buf) =
        Except.ok (fillFormatBGRA32 w h (w * 4) buf)) := by
  constructor
  · intro src w i hi
    rw [decodeRow24bpp_getD src w i 3 hi (by norm_num)]
    norm_num
  · intro w h buf hw hh hlen halpha hS hF hD
    refine ⟨bmp24Save_eq w h buf hw hh hS hF, ?_⟩
    rw [bmpRead, bmp24Stages w h buf hw hh hS hF hD]
    dsimp only
    rw [bmp24Decode_eq w h buf hw hh hlen halpha]
    rfl

theorem bmp24_roundtrip_witness :
    (decodeRow24bpp [9, 9, 9] 1).getD (0 * 4 + 3) 0 = 255 ∧
    (bmpSave { Width := 2, Height := 2, BytesPerLine := 2 * 4,
               BitsPerPixel := 32, RedMask := 16711680, GreenMask := 65280,
               BlueMask := 255, AlphaMask := 4278190080,
               Image := [1, 2, 3, 255, 4, 5, 6, 255,
                         7, 8, 9, 255, 10, 11, 12, 255] } 24 =
        some (bmp24SavedFile 2 2 [1, 2, 3, 255, 4, 5, 6, 255,
                                  7, 8, 9, 255, 10, 11, 12, 255]) ∧
      bmpRead (bmp24SavedFile 2 2 [1, 2, 3, 255, 4, 5, 6, 255,
                                   7, 8, 9, 255, 10, 11, 12, 255]) =
        Except.ok (fillFormatBGRA32 2 2 (2 * 4)
          [1, 2, 3, 255, 4, 5, 6, 255, 7, 8, 9, 255, 10, 11, 12, 255])) := by
  refine ⟨bmp24_roundtrip.1 [9, 9, 9] 1 0 (by decide), ?_⟩
  exact bmp24_roundtrip.2 2 2
    [1, 2, 3, 255, 4, 5, 6, 255, 7, 8, 9, 255, 10, 11, 12, 255]
    (by decide) (by decide) (by decide) (by decide)
    (by decide) (by decide) (by decide)

end CKImage
